import Mathlib

set_option maxHeartbeats 1000000

/-!
Verification development for the arbitrum-mcp-tools multi-platform MCP
config installer.  The definitions below are a shallow embedding of the
TypeScript sources:

  src/cli/clients/generators/json.ts  (JSON codec)
  src/cli/clients/generators/toml.ts  (TOML codec)
  src/cli/clients/registry.ts         (platform registry)
  src/cli/clients/base.ts             (platform operations)
  src/cli/utils/paths.ts              (path resolver)

Parsed config documents are JavaScript values (the output of JSON.parse,
resp. TOML.parse); the filesystem is modelled per codec as a map from
paths to file states (absent, unparsable, or a stored parsed document).
The code runs as an ES module, hence in strict mode: assigning a property
on a primitive value throws a TypeError, which we model with Except.
-/

/-- JavaScript values as produced by JSON.parse: null, booleans, numbers
(modelled as integers; no claim depends on float behaviour), strings,
arrays and objects.  Objects are insertion-ordered association lists. -/
inductive JsVal where
  | null
  | bool (b : Bool)
  | num (n : Int)
  | str (s : String)
  | arr (elems : List JsVal)
  | obj (fields : List (String × JsVal))

/-- First-match lookup in an insertion-ordered association list
(JavaScript object property read). -/
def objGet {α : Type} : List (String × α) → String → Option α
  | [], _ => none
  | p :: rest, k => if p.1 = k then some p.2 else objGet rest k

/-- Property write on an insertion-ordered association list: an existing
key keeps its position and gets the new value, a new key is appended
(JavaScript object property assignment ordering). -/
def objSet {α : Type} : List (String × α) → String → α → List (String × α)
  | [], k, v => [(k, v)]
  | p :: rest, k, v => if p.1 = k then (k, v) :: rest else p :: objSet rest k v

/-- Property removal (the JavaScript delete operator). -/
def objDel {α : Type} (o : List (String × α)) (k : String) : List (String × α) :=
  o.filter (fun p => p.1 != k)

/-- JavaScript truthiness: null, false, 0 and the empty string are falsy;
arrays and objects are always truthy. -/
def JsVal.truthy : JsVal → Bool
  | .null => false
  | .bool b => b
  | .num n => n != 0
  | .str s => s != ""
  | .arr _ => true
  | .obj _ => true

/-- Truthiness of a possibly-undefined property read. -/
def jsTruthy : Option JsVal → Bool
  | none => false
  | some v => v.truthy

/-- Property read on a JavaScript value.  Reads on primitives and arrays
yield undefined for the property names used by this program. -/
def jsGetProp : JsVal → String → Option JsVal
  | .obj o, k => objGet o k
  | _, _ => none

/-- Strict-mode property assignment.  On an object it stores the value;
on an array it succeeds but the named property is invisible to JSON/TOML
serialization, so at the stored-document level the array is unchanged;
on a primitive or null it throws a TypeError. -/
def jsSetProp : JsVal → String → JsVal → Except String JsVal
  | .obj o, k, v => .ok (.obj (objSet o k v))
  | .arr es, _, _ => .ok (.arr es)
  | _, _, _ => .error "TypeError: cannot create property on a primitive value"

/-- Write-back of a mutated sub-object into its parent (in the source the
mutation happens through an alias, so this step cannot throw). -/
def objSetJ : JsVal → String → JsVal → JsVal
  | .obj o, k, v => .obj (objSet o k v)
  | v, _, _ => v

/-- The delete operator applied through the servers alias. -/
def jsDelProp : JsVal → String → JsVal
  | .obj o, k => .obj (objDel o k)
  | v, _ => v

/-- Object.keys(v).length. -/
def jsKeysLength : JsVal → Nat
  | .obj o => o.length
  | .arr es => es.length
  | _ => 0

/-- State of one config file as seen by the JSON codec: missing, present
but unparsable, or present with a parsed document. -/
inductive JsonFile where
  | absent
  | invalid
  | stored (doc : JsVal)

/-- The filesystem seen by the JSON codec: a map from paths to states. -/
def JsonFS : Type := String → JsonFile

/-- fs.existsSync for the JSON codec view. -/
def jsonFileExists (fs : JsonFS) (filePath : String) : Bool :=
  match fs filePath with
  | .absent => false
  | _ => true

/-- readJsonConfig (json.ts lines 14-24): returns the parsed document;
a missing or unparsable file is swallowed by the try/catch and yields
the empty document. -/
def readJsonConfig (fs : JsonFS) (filePath : String) : JsVal :=
  match fs filePath with
  | .stored doc => doc
  | _ => .obj []

/-- writeJsonConfig (json.ts lines 26-30): serializes the document and
overwrites the file (parent directory creation has no observable effect
at this level of the model). -/
def writeJsonConfig (fs : JsonFS) (filePath : String) (config : JsVal) : JsonFS :=
  fun q => if q = filePath then .stored config else fs q

/-- generateMcpServerEntry (json.ts lines 32-39): the fixed JSON server
entry; no env field is written. -/
def generateMcpServerEntry : JsVal :=
  .obj [("command", .str "npx"),
        ("args", .arr [.str "-y", .str "arbitrum-mcp-tools", .str "serve"])]

/-- Core of addArbitrumToJsonConfig (json.ts lines 45-58), acting on the
parsed document: if config[configKey] is falsy it is assigned a fresh
empty object (an assignment that throws when config is a primitive);
then the object now at configKey receives the entry under the key
arbitrum (throwing when that value is a truthy primitive); the mutation
is visible through the alias, modelled by the final write-back. -/
def addArbitrumCore (config : JsVal) (configKey : String) : Except String JsVal := do
  let t := jsTruthy (jsGetProp config configKey)
  let config1 ← if t then pure config else jsSetProp config configKey (.obj [])
  let servers := if t then (jsGetProp config configKey).getD .null else .obj []
  let servers1 ← jsSetProp servers "arbitrum" generateMcpServerEntry
  pure (objSetJ config1 configKey servers1)

/-- addArbitrumToJsonConfig (json.ts lines 41-63): read, mutate, write;
any thrown error is caught and turned into a false return with the
filesystem unchanged. -/
def addArbitrumToJsonConfig (fs : JsonFS) (filePath configKey : String) : Bool × JsonFS :=
  match addArbitrumCore (readJsonConfig fs filePath) configKey with
  | .ok newConfig => (true, writeJsonConfig fs filePath newConfig)
  | .error _ => (false, fs)

/-- Core of removeArbitrumFromJsonConfig (json.ts lines 74-93) on the
parsed document: falsy configKey value or falsy arbitrum entry yield
none (return false); otherwise the entry is deleted and, when the
container becomes empty, the configKey itself is deleted. -/
def removeArbitrumCore (config : JsVal) (configKey : String) : Option JsVal :=
  if jsTruthy (jsGetProp config configKey) then
    let servers := (jsGetProp config configKey).getD .null
    if jsTruthy (jsGetProp servers "arbitrum") then
      let servers1 := jsDelProp servers "arbitrum"
      some (if jsKeysLength servers1 = 0 then jsDelProp config configKey
            else objSetJ config configKey servers1)
    else none
  else none

/-- removeArbitrumFromJsonConfig (json.ts lines 65-99): false when the
file does not exist, otherwise the core acts on the parsed document and
a successful removal is written back. -/
def removeArbitrumFromJsonConfig (fs : JsonFS) (filePath configKey : String) : Bool × JsonFS :=
  if jsonFileExists fs filePath then
    match removeArbitrumCore (readJsonConfig fs filePath) configKey with
    | some newConfig => (true, writeJsonConfig fs filePath newConfig)
    | none => (false, fs)
  else (false, fs)

/-- isArbitrumInstalledInJsonConfig (json.ts lines 101-121): file exists,
configKey value truthy, and the arbitrum property under it truthy. -/
def isArbitrumInstalledInJsonConfig (fs : JsonFS) (filePath configKey : String) : Bool :=
  if jsonFileExists fs filePath then
    let config := readJsonConfig fs filePath
    jsTruthy (jsGetProp config configKey) &&
      jsTruthy (jsGetProp ((jsGetProp config configKey).getD .null) "arbitrum")
  else false

/-- TOML values as produced by TOML.parse of the @iarna/toml library:
booleans, integers (floats and datetimes are not used by this program),
strings, arrays and tables.  TOML has no null value. -/
inductive TomlVal where
  | bool (b : Bool)
  | int (n : Int)
  | str (s : String)
  | arr (elems : List TomlVal)
  | table (fields : List (String × TomlVal))

/-- Truthiness of a parsed TOML value seen as a JavaScript value. -/
def TomlVal.truthy : TomlVal → Bool
  | .bool b => b
  | .int n => n != 0
  | .str s => s != ""
  | .arr _ => true
  | .table _ => true

/-- Truthiness of a possibly-undefined property read. -/
def tomlTruthy : Option TomlVal → Bool
  | none => false
  | some v => v.truthy

/-- Property read on a parsed TOML value. -/
def tomlGetProp : TomlVal → String → Option TomlVal
  | .table o, k => objGet o k
  | _, _ => none

/-- Strict-mode property assignment on a parsed TOML value (same
semantics as for JSON values: arrays swallow the named property at the
serialization boundary, primitives throw). -/
def tomlSetProp : TomlVal → String → TomlVal → Except String TomlVal
  | .table o, k, v => .ok (.table (objSet o k v))
  | .arr es, _, _ => .ok (.arr es)
  | _, _, _ => .error "TypeError: cannot create property on a primitive value"

/-- Write-back of a mutated sub-table into its parent. -/
def objSetT : TomlVal → String → TomlVal → TomlVal
  | .table o, k, v => .table (objSet o k v)
  | v, _, _ => v

/-- The delete operator on a parsed TOML value. -/
def tomlDelProp : TomlVal → String → TomlVal
  | .table o, k => .table (objDel o k)
  | v, _ => v

/-- Object.keys(v).length for a parsed TOML value. -/
def tomlKeysLength : TomlVal → Nat
  | .table o => o.length
  | .arr es => es.length
  | _ => 0

/-- State of one config file as seen by the TOML codec.  A successful
TOML.parse always yields a top-level table. -/
inductive TomlFile where
  | absent
  | invalid
  | stored (doc : List (String × TomlVal))

/-- The filesystem seen by the TOML codec. -/
def TomlFS : Type := String → TomlFile

/-- fs.existsSync for the TOML codec view. -/
def tomlFileExists (fs : TomlFS) (filePath : String) : Bool :=
  match fs filePath with
  | .absent => false
  | _ => true

/-- readTomlConfig (toml.ts lines 17-27): missing or unparsable files are
swallowed by the try/catch and yield the empty document. -/
def readTomlConfig (fs : TomlFS) (filePath : String) : TomlVal :=
  match fs filePath with
  | .stored doc => .table doc
  | _ => .table []

/-- writeTomlConfig (toml.ts lines 29-33): serializes the document and
overwrites the file.  All values this model can hold are representable
in TOML, so TOML.stringify does not throw here. -/
def writeTomlConfig (fs : TomlFS) (filePath : String) (config : List (String × TomlVal)) :
    TomlFS :=
  fun q => if q = filePath then .stored config else fs q

/-- The five environment-variable names forwarded to the Codex sandbox. -/
def codexEnvVarNames : List String :=
  ["ALCHEMY_API_KEY", "ARBISCAN_API_KEY", "STYLUS_PRIVATE_KEY",
   "STYLUS_PRIVATE_KEY_PATH", "STYLUS_KEYSTORE_PATH"]

/-- generateTomlMcpServerEntry (toml.ts lines 35-54): the fixed TOML
server entry with enabled = true and the env_vars name-forwarding list
(the names of the variables, never their values). -/
def generateTomlMcpServerEntry : TomlVal :=
  .table [("command", .str "npx"),
          ("args", .arr [.str "-y", .str "arbitrum-mcp-tools", .str "serve"]),
          ("enabled", .bool true),
          ("env_vars", .arr (codexEnvVarNames.map TomlVal.str))]

/-- Core of addArbitrumToTomlConfig (toml.ts lines 60-73) on the parsed
document, mirroring the JSON codec core. -/
def addArbitrumTomlCore (config : TomlVal) (configKey : String) : Except String TomlVal := do
  let t := tomlTruthy (tomlGetProp config configKey)
  let config1 ← if t then pure config else tomlSetProp config configKey (.table [])
  let servers := if t then (tomlGetProp config configKey).getD (.table []) else .table []
  let servers1 ← tomlSetProp servers "arbitrum" generateTomlMcpServerEntry
  pure (objSetT config1 configKey servers1)

/-- addArbitrumToTomlConfig (toml.ts lines 56-78): read, mutate, write;
a thrown error is caught and turned into a false return. -/
def addArbitrumToTomlConfig (fs : TomlFS) (filePath configKey : String) : Bool × TomlFS :=
  match addArbitrumTomlCore (readTomlConfig fs filePath) configKey with
  | .ok (.table newConfig) => (true, writeTomlConfig fs filePath newConfig)
  | .ok _ => (true, fs)
  | .error _ => (false, fs)

/-- Core of removeArbitrumFromTomlConfig (toml.ts lines 89-108) on the
parsed document. -/
def removeArbitrumTomlCore (config : TomlVal) (configKey : String) : Option TomlVal :=
  if tomlTruthy (tomlGetProp config configKey) then
    let servers := (tomlGetProp config configKey).getD (.table [])
    if tomlTruthy (tomlGetProp servers "arbitrum") then
      let servers1 := tomlDelProp servers "arbitrum"
      some (if tomlKeysLength servers1 = 0 then tomlDelProp config configKey
            else objSetT config configKey servers1)
    else none
  else none

/-- removeArbitrumFromTomlConfig (toml.ts lines 80-114). -/
def removeArbitrumFromTomlConfig (fs : TomlFS) (filePath configKey : String) : Bool × TomlFS :=
  if tomlFileExists fs filePath then
    match removeArbitrumTomlCore (readTomlConfig fs filePath) configKey with
    | some (.table newConfig) => (true, writeTomlConfig fs filePath newConfig)
    | some _ => (true, fs)
    | none => (false, fs)
  else (false, fs)

/-- isArbitrumInstalledInTomlConfig (toml.ts lines 116-136). -/
def isArbitrumInstalledInTomlConfig (fs : TomlFS) (filePath configKey : String) : Bool :=
  if tomlFileExists fs filePath then
    let config := readTomlConfig fs filePath
    tomlTruthy (tomlGetProp config configKey) &&
      tomlTruthy (tomlGetProp ((tomlGetProp config configKey).getD (.table [])) "arbitrum")
  else false

/-- Operating systems distinguished by getPlatform (platform.ts lines
6-12); any other value reported by os.platform() falls back to linux,
so the three-valued type already covers the fallback. -/
inductive OS where
  | darwin
  | win32
  | linux
deriving DecidableEq

/-- The node name of the platform, as interpolated into error text. -/
def OS.nodeName : OS → String
  | .darwin => "darwin"
  | .win32 => "win32"
  | .linux => "linux"

/-- The Windows environment variables consulted by resolvePath; none is
read anywhere else in the installer. -/
structure WinEnv where
  appdata : Option String
  userprofile : Option String
  localappdata : Option String

/-- JavaScript value || fallback on an optional environment variable:
unset and empty both select the fallback. -/
def jsOrElse : Option String → String → String
  | none, d => d
  | some s, d => if s = "" then d else s

/-- Position of the first occurrence of a pattern in a character list. -/
def subFind : List Char → List Char → Option Nat
  | _, [] => some 0
  | [], _ => none
  | c :: rest, pat =>
    if pat.isPrefixOf (c :: rest) then some 0
    else (subFind rest pat).map (· + 1)

/-- JavaScript String.replace with a string pattern: replaces only the
first occurrence and returns the string unchanged when the pattern does
not occur. -/
def jsReplaceFirst (s pat repl : String) : String :=
  match subFind s.data pat.data with
  | none => s
  | some i => ⟨s.data.take i ++ repl.data ++ s.data.drop (i + pat.data.length)⟩

/-- JavaScript String.startsWith. -/
def strStarts (s pat : String) : Bool :=
  pat.data.isPrefixOf s.data

/-- True when the pattern occurs somewhere in the string. -/
def strOccurs (s pat : String) : Bool :=
  (subFind s.data pat.data).isSome

/-- Split a character list at every slash. -/
def splitSlash : List Char → List Char → List (List Char)
  | [], cur => [cur.reverse]
  | c :: rest, cur =>
    if c = '/' then cur.reverse :: splitSlash rest []
    else splitSlash rest (c :: cur)

/-- Resolution of empty, dot and dot-dot segments, as done by the Node
path normalizer for relative and slash-rooted paths. -/
def normSegs (isAbs : Bool) : List String → List String → List String
  | [], acc => acc.reverse
  | seg :: rest, acc =>
    if seg = "" ∨ seg = "." then normSegs isAbs rest acc
    else if seg = ".." then
      match acc with
      | [] => if isAbs then normSegs isAbs rest [] else normSegs isAbs rest [".."]
      | a :: tl => if a = ".." then normSegs isAbs rest (".." :: a :: tl)
                   else normSegs isAbs rest tl
    else normSegs isAbs rest (seg :: acc)

/-- Join path segments with the separator. -/
def joinSep (sep : String) : List String → String
  | [] => ""
  | [s] => s
  | s :: rest => s ++ sep ++ joinSep sep rest

/-- Model of the Node path.normalize used by resolvePath and path.join:
on win32 slashes become backslashes, empty and dot segments collapse,
and a trailing separator is preserved.  Drive-letter and UNC roots are
not modelled; no path template of this program uses them. -/
def pathNormalize (os : OS) (p : String) : String :=
  let sep := if os = OS.win32 then "\\" else "/"
  let chars := if os = OS.win32 then p.data.map (fun c => if c = '\\' then '/' else c)
               else p.data
  let isAbs := match chars.head? with
    | some c => c == '/'
    | none => false
  let segs := normSegs isAbs ((splitSlash chars []).map (fun l => String.mk l)) []
  let core := joinSep sep segs
  let base := if segs.isEmpty then (if isAbs then sep else ".")
              else (if isAbs then sep ++ core else core)
  let endsWithSep := chars.getLast? == some '/'
  if endsWithSep && !segs.isEmpty then base ++ sep else base

/-- A plain path segment: nonempty and free of separators, dots and the
percent character, so that path normalization keeps it verbatim and no
placeholder pattern can overlap it. -/
def plainSeg (s : String) : Bool :=
  (s != "") && s.data.all (fun c => c != '/' && c != '\\' && c != '.' && c != '%')

/-- Segment fit for verbatim path normalization: nonempty, not a dot or
dot-dot segment, and free of both separators. -/
def segOk (s : String) : Bool :=
  (s != "") && (s != ".") && (s != "..") && s.data.all (fun c => c != '/' && c != '\\')

/-- resolvePath (paths.ts lines 6-26): a template starting with the home
shorthand has its first tilde replaced by the home directory; on win32
the three known placeholders are each replaced at their first occurrence
(APPDATA and LOCALAPPDATA fall back to the empty string, USERPROFILE to
the home directory); the result is normalized for the platform. -/
def resolvePath (os : OS) (homeDir : String) (env : WinEnv) (pathTemplate : String) : String :=
  let resolved := pathTemplate
  let resolved := if strStarts resolved "~" then jsReplaceFirst resolved "~" homeDir
                  else resolved
  let resolved := if os = OS.win32 then
      let r1 := jsReplaceFirst resolved "%APPDATA%" (jsOrElse env.appdata "")
      let r2 := jsReplaceFirst r1 "%USERPROFILE%" (jsOrElse env.userprofile homeDir)
      jsReplaceFirst r2 "%LOCALAPPDATA%" (jsOrElse env.localappdata "")
    else resolved
  pathNormalize os resolved

/-- getLocalConfigPath (paths.ts lines 28-31): path.join of the current
working directory and the relative template. -/
def getLocalConfigPath (os : OS) (cwd : String) (localTemplate : String) : String :=
  pathNormalize os (cwd ++ (if os = OS.win32 then "\\" else "/") ++ localTemplate)

/-- Serialization format of a platform config file (registry.ts). -/
inductive McpFormat where
  | json
  | toml
deriving DecidableEq

/-- Per-OS global path templates of one platform (registry.ts). -/
structure GlobalPaths where
  darwin : String
  win32 : String
  linux : String
deriving DecidableEq

/-- The template selected for the current OS (the globalPaths[platform]
lookup in paths.ts line 35). -/
def GlobalPaths.forOS (g : GlobalPaths) : OS → String
  | .darwin => g.darwin
  | .win32 => g.win32
  | .linux => g.linux

/-- PlatformConfig (registry.ts lines 1-11).  The field named local in
the source is a Lean keyword and is called localPath here. -/
structure PlatformConfig where
  name : String
  format : McpFormat
  configKey : String
  global : GlobalPaths
  localPath : String
deriving DecidableEq

/-- The platform registry (registry.ts lines 13-91), in source order. -/
def platforms : List (String × PlatformConfig) :=
  [("claude-desktop",
    { name := "Claude Desktop", format := .json, configKey := "mcpServers",
      global := { darwin := "~/Library/Application Support/Claude/claude_desktop_config.json",
                  win32 := "%APPDATA%/Claude/claude_desktop_config.json",
                  linux := "~/.config/Claude/claude_desktop_config.json" },
      localPath := ".claude/mcp.json" }),
   ("claude-code",
    { name := "Claude Code", format := .json, configKey := "mcpServers",
      global := { darwin := "~/.claude.json", win32 := "~/.claude.json",
                  linux := "~/.claude.json" },
      localPath := ".mcp.json" }),
   ("cursor",
    { name := "Cursor", format := .json, configKey := "mcpServers",
      global := { darwin := "~/.cursor/mcp.json", win32 := "~/.cursor/mcp.json",
                  linux := "~/.cursor/mcp.json" },
      localPath := ".cursor/mcp.json" }),
   ("windsurf",
    { name := "Windsurf", format := .json, configKey := "mcpServers",
      global := { darwin := "~/.codeium/windsurf/mcp_config.json",
                  win32 := "%USERPROFILE%/.codeium/windsurf/mcp_config.json",
                  linux := "~/.codeium/windsurf/mcp_config.json" },
      localPath := ".windsurf/mcp.json" }),
   ("vscode",
    { name := "VS Code", format := .json, configKey := "servers",
      global := { darwin := "~/.vscode/mcp.json", win32 := "~/.vscode/mcp.json",
                  linux := "~/.vscode/mcp.json" },
      localPath := ".vscode/mcp.json" }),
   ("gemini",
    { name := "Gemini CLI", format := .json, configKey := "mcpServers",
      global := { darwin := "~/.gemini/settings.json", win32 := "~/.gemini/settings.json",
                  linux := "~/.gemini/settings.json" },
      localPath := ".gemini/settings.json" }),
   ("codex",
    { name := "OpenAI Codex", format := .toml, configKey := "mcp_servers",
      global := { darwin := "~/.codex/config.toml", win32 := "~/.codex/config.toml",
                  linux := "~/.codex/config.toml" },
      localPath := ".codex/config.toml" })]

/-- getGlobalConfigPath (paths.ts lines 33-42): selects the template for
the current OS and throws (modelled as Except.error) when it is missing,
which with typed registry entries means the empty string. -/
def getGlobalConfigPath (os : OS) (homeDir : String) (env : WinEnv)
    (globalPaths : GlobalPaths) : Except String String :=
  let pathTemplate := globalPaths.forOS os
  if pathTemplate = "" then .error ("Unsupported platform: " ++ os.nodeName)
  else .ok (resolvePath os homeDir env pathTemplate)

/-- Scope of an install (base.ts line 15). -/
inductive Scope where
  | global
  | localScope
deriving DecidableEq

/-- InstallResult (base.ts lines 17-21). -/
structure InstallResult where
  success : Bool
  path : String
  error : Option String
deriving DecidableEq

/-- The host state threaded through platform operations: the two codec
views of the filesystem. -/
structure SysState where
  jfs : JsonFS
  tfs : TomlFS

/-- getConfigPath (base.ts lines 23-32): global scope resolves through
the template table and can throw; local scope joins onto the working
directory and cannot. -/
def getConfigPath (os : OS) (homeDir : String) (env : WinEnv) (cwd : String)
    (platform : PlatformConfig) (scope : Scope) : Except String String :=
  match scope with
  | .global => getGlobalConfigPath os homeDir env platform.global
  | .localScope => .ok (getLocalConfigPath os cwd platform.localPath)

/-- installToPlatform (base.ts lines 34-61): the config path is computed
before the try block, so a path-resolution throw propagates (the Except
bind); the codec dispatch inside the try never throws because both add
functions catch internally, so the catch branch is unreachable and the
result carries no error string. -/
def installToPlatform (os : OS) (homeDir : String) (env : WinEnv) (cwd : String)
    (platformId : String) (platform : PlatformConfig) (scope : Scope) (st : SysState) :
    Except String (InstallResult × SysState) := do
  let configPath ← getConfigPath os homeDir env cwd platform scope
  match platform.format with
  | .json =>
    let r := addArbitrumToJsonConfig st.jfs configPath platform.configKey
    pure ({ success := r.1, path := configPath, error := none }, { st with jfs := r.2 })
  | .toml =>
    let r := addArbitrumToTomlConfig st.tfs configPath platform.configKey
    pure ({ success := r.1, path := configPath, error := none }, { st with tfs := r.2 })

/-- uninstallFromPlatform (base.ts lines 63-90), symmetric to install. -/
def uninstallFromPlatform (os : OS) (homeDir : String) (env : WinEnv) (cwd : String)
    (platformId : String) (platform : PlatformConfig) (scope : Scope) (st : SysState) :
    Except String (InstallResult × SysState) := do
  let configPath ← getConfigPath os homeDir env cwd platform scope
  match platform.format with
  | .json =>
    let r := removeArbitrumFromJsonConfig st.jfs configPath platform.configKey
    pure ({ success := r.1, path := configPath, error := none }, { st with jfs := r.2 })
  | .toml =>
    let r := removeArbitrumFromTomlConfig st.tfs configPath platform.configKey
    pure ({ success := r.1, path := configPath, error := none }, { st with tfs := r.2 })

/-- isPlatformInstalled (base.ts lines 92-104); it also resolves the
path outside any try block. -/
def isPlatformInstalled (os : OS) (homeDir : String) (env : WinEnv) (cwd : String)
    (platformId : String) (platform : PlatformConfig) (scope : Scope) (st : SysState) :
    Except String Bool := do
  let configPath ← getConfigPath os homeDir env cwd platform scope
  match platform.format with
  | .json => pure (isArbitrumInstalledInJsonConfig st.jfs configPath platform.configKey)
  | .toml => pure (isArbitrumInstalledInTomlConfig st.tfs configPath platform.configKey)

/-- Values on which a property can be stored and later serialized or
read back: objects; arrays accept the assignment but drop it. -/
def JsVal.isMapLike : JsVal → Bool
  | .obj _ => true
  | .arr _ => true
  | _ => false

def fsAbsent : JsonFS := fun _ => .absent

def tfsInvalid : TomlFS := fun _ => .invalid

def winEnvUnset : WinEnv := { appdata := none, userprofile := none, localappdata := none }

def emptyHost : SysState := ⟨fun _ => .absent, fun _ => .absent⟩

def claudeDesktopCfg : PlatformConfig :=
  { name := "Claude Desktop", format := .json, configKey := "mcpServers",
    global := { darwin := "~/Library/Application Support/Claude/claude_desktop_config.json",
                win32 := "%APPDATA%/Claude/claude_desktop_config.json",
                linux := "~/.config/Claude/claude_desktop_config.json" },
    localPath := ".claude/mcp.json" }

def c2WitnessFS : JsonFS := fun q =>
  if q = "cfg.json" then
    .stored (.obj [("keep", .num 7),
                   ("mcpServers", .obj [("other", .obj []), ("arbitrum", .str "old")])])
  else .absent

def c2TomlWitnessFS : TomlFS := fun q =>
  if q = "config.toml" then
    .stored [("other_key", .str "keep"), ("mcp_servers", .table [("old", .table [])])]
  else .absent

def c3CounterFS : JsonFS := fun q =>
  if q = "cfg.json" then .stored (.obj [("mcpServers", .obj [("arbitrum", .bool false)])])
  else .absent

def c3WitnessFS : JsonFS := fun q =>
  if q = "cfg.json" then
    .stored (.obj [("keep", .str "x"),
                   ("mcpServers", .obj [("arbitrum", generateMcpServerEntry),
                                        ("other", .obj [])])])
  else .absent

def c3TomlWitnessFS : TomlFS := fun q =>
  if q = "config.toml" then
    .stored [("other_key", .str "x"),
             ("mcp_servers", .table [("arbitrum", generateTomlMcpServerEntry)])]
  else .absent

/-- Document shapes on which the add operation can really store the
entry: the top level is an object and the configKey value is absent,
falsy, or itself an object. -/
def addShapeOk : JsVal → String → Bool
  | .obj top, k =>
    (match objGet top k with
      | none => true
      | some (.obj _) => true
      | some v => !v.truthy)
  | _, _ => false

def c4CounterFS : JsonFS := fun q =>
  if q = "cfg.json" then .stored (.obj [("mcpServers", .str "broken")]) else .absent

def c4WitnessFS : JsonFS := fun _ => .absent

def c6CounterFS : JsonFS := fun q =>
  if q = "cfg.json" then .stored (.obj [("mcpServers", .str "oops"), ("keep", .num 7)])
  else .absent

/-- The JSON entry generator with the (absent) process-environment
dependence made explicit: the source generator never reads process.env,
so the wrapper ignores its argument. -/
def generateMcpServerEntryWithEnv (_processEnv : String → String) : JsVal :=
  generateMcpServerEntry

/-- The TOML entry generator with the (absent) process-environment
dependence made explicit. -/
def generateTomlMcpServerEntryWithEnv (_processEnv : String → String) : TomlVal :=
  generateTomlMcpServerEntry

mutual

/-- All string literals (keys and string values) occurring anywhere in a
JavaScript value, in order. -/
def jsValStrings : JsVal → List String
  | .null => []
  | .bool _ => []
  | .num _ => []
  | .str s => [s]
  | .arr es => jsListStrings es
  | .obj fields => jsFieldsStrings fields

def jsListStrings : List JsVal → List String
  | [] => []
  | v :: rest => jsValStrings v ++ jsListStrings rest

def jsFieldsStrings : List (String × JsVal) → List String
  | [] => []
  | p :: rest => p.1 :: (jsValStrings p.2 ++ jsFieldsStrings rest)

end

mutual

/-- All string literals (keys and string values) occurring anywhere in a
parsed TOML value, in order. -/
def tomlValStrings : TomlVal → List String
  | .bool _ => []
  | .int _ => []
  | .str s => [s]
  | .arr es => tomlListStrings es
  | .table fields => tomlFieldsStrings fields

def tomlListStrings : List TomlVal → List String
  | [] => []
  | v :: rest => tomlValStrings v ++ tomlListStrings rest

def tomlFieldsStrings : List (String × TomlVal) → List String
  | [] => []
  | p :: rest => p.1 :: (tomlValStrings p.2 ++ tomlFieldsStrings rest)

end

def c9BadPlatform : PlatformConfig :=
  { name := "Broken", format := .json, configKey := "mcpServers",
    global := { darwin := "", win32 := "", linux := "" }, localPath := ".x/mcp.json" }

def TomlVal.isMapLike : TomlVal → Bool
  | .table _ => true
  | .arr _ => true
  | _ => false

theorem objGet_objSet_self {α : Type} (o : List (String × α)) (k : String) (v : α) :
    objGet (objSet o k v) k = some v := by
  induction o with
  | nil => simp [objSet, objGet]
  | cons p rest ih =>
    by_cases h : p.1 = k
    · rw [objSet, if_pos h]
      simp [objGet]
    · rw [objSet, if_neg h]
      rw [objGet, if_neg h, ih]

theorem objGet_objSet_ne {α : Type} (o : List (String × α)) (k k' : String) (v : α)
    (h : k' ≠ k) : objGet (objSet o k v) k' = objGet o k' := by
  have hk : ¬ (k = k') := fun hh => h hh.symm
  induction o with
  | nil => simp [objSet, objGet, hk]
  | cons p rest ih =>
    by_cases hp : p.1 = k
    · rw [objSet, if_pos hp]
      have hp' : ¬ (p.1 = k') := by rw [hp]; exact hk
      rw [objGet, if_neg hk, objGet, if_neg hp']
    · rw [objSet, if_neg hp]
      rw [objGet, objGet, ih]

theorem objSet_objSet_same {α : Type} (o : List (String × α)) (k : String) (v w : α) :
    objSet (objSet o k v) k w = objSet o k w := by
  induction o with
  | nil => simp [objSet]
  | cons p rest ih =>
    by_cases h : p.1 = k
    · rw [objSet, if_pos h, objSet, if_pos rfl, objSet, if_pos h]
    · rw [objSet, if_neg h, objSet, if_neg h, objSet, if_neg h, ih]

theorem objGet_objDel_self {α : Type} (o : List (String × α)) (k : String) :
    objGet (objDel o k) k = none := by
  induction o with
  | nil => simp [objDel, objGet]
  | cons p rest ih =>
    by_cases h : p.1 = k
    · simpa [objDel, List.filter_cons, h] using ih
    · rw [objDel, List.filter_cons] at *
      simp only [h, bne_iff_ne, ne_eq, not_false_iff, if_true]
      rw [objGet, if_neg h]
      simpa [objDel] using ih

theorem objGet_objDel_ne {α : Type} (o : List (String × α)) (k k' : String)
    (h : k' ≠ k) : objGet (objDel o k) k' = objGet o k' := by
  induction o with
  | nil => simp [objDel, objGet]
  | cons p rest ih =>
    by_cases hp : p.1 = k
    · have hp' : ¬ (p.1 = k') := by rw [hp]; exact fun hh => h hh.symm
      rw [objDel, List.filter_cons] at *
      simp only [hp, bne_self_eq_false, if_false]
      rw [objGet, if_neg hp']
      simpa [objDel] using ih
    · rw [objDel, List.filter_cons] at *
      simp only [hp, bne_iff_ne, ne_eq, not_false_iff, if_true]
      rw [objGet, objGet]
      by_cases hp' : p.1 = k'
      · rw [if_pos hp', if_pos hp']
      · rw [if_neg hp', if_neg hp']
        simpa [objDel] using ih

theorem addCore_falsyKey (top : List (String × JsVal)) (k : String)
    (h : jsTruthy (objGet top k) = false) :
    addArbitrumCore (.obj top) k =
      .ok (.obj (objSet top k (.obj [("arbitrum", generateMcpServerEntry)]))) := by
  simp [addArbitrumCore, jsGetProp, h, jsSetProp, objSetJ, bind, Except.bind,
    pure, Except.pure, objSet_objSet_same, objSet]

theorem addCore_objVal (top m : List (String × JsVal)) (k : String)
    (h : objGet top k = some (.obj m)) :
    addArbitrumCore (.obj top) k =
      .ok (.obj (objSet top k (.obj (objSet m "arbitrum" generateMcpServerEntry)))) := by
  simp [addArbitrumCore, jsGetProp, h, jsTruthy, JsVal.truthy, jsSetProp, objSetJ,
    bind, Except.bind, pure, Except.pure]

theorem addCore_arrVal (top : List (String × JsVal)) (es : List JsVal) (k : String)
    (h : objGet top k = some (.arr es)) :
    addArbitrumCore (.obj top) k = .ok (.obj (objSet top k (.arr es))) := by
  simp [addArbitrumCore, jsGetProp, h, jsTruthy, JsVal.truthy, jsSetProp, objSetJ,
    bind, Except.bind, pure, Except.pure]

theorem addCore_primTruthy (top : List (String × JsVal)) (k : String) (v : JsVal)
    (h : objGet top k = some v) (ht : v.truthy = true) (hm : v.isMapLike = false) :
    addArbitrumCore (.obj top) k =
      .error "TypeError: cannot create property on a primitive value" := by
  cases v with
  | null => simp [JsVal.truthy] at ht
  | bool b =>
    simp [addArbitrumCore, jsGetProp, h, jsTruthy, ht, jsSetProp, bind, Except.bind,
      pure, Except.pure]
  | num n =>
    simp [addArbitrumCore, jsGetProp, h, jsTruthy, ht, jsSetProp, bind, Except.bind,
      pure, Except.pure]
  | str s =>
    simp [addArbitrumCore, jsGetProp, h, jsTruthy, ht, jsSetProp, bind, Except.bind,
      pure, Except.pure]
  | arr es => simp [JsVal.isMapLike] at hm
  | obj o => simp [JsVal.isMapLike] at hm

theorem addCore_root_arr (es : List JsVal) (k : String) :
    addArbitrumCore (.arr es) k = .ok (.arr es) := by
  simp [addArbitrumCore, jsGetProp, jsTruthy, jsSetProp, objSetJ, bind, Except.bind,
    pure, Except.pure]

theorem addCore_root_prim (config : JsVal) (k : String) (h : config.isMapLike = false) :
    addArbitrumCore config k =
      .error "TypeError: cannot create property on a primitive value" := by
  cases config with
  | null =>
    simp [addArbitrumCore, jsGetProp, jsTruthy, jsSetProp, bind, Except.bind,
      pure, Except.pure]
  | bool b =>
    simp [addArbitrumCore, jsGetProp, jsTruthy, jsSetProp, bind, Except.bind,
      pure, Except.pure]
  | num n =>
    simp [addArbitrumCore, jsGetProp, jsTruthy, jsSetProp, bind, Except.bind,
      pure, Except.pure]
  | str s =>
    simp [addArbitrumCore, jsGetProp, jsTruthy, jsSetProp, bind, Except.bind,
      pure, Except.pure]
  | arr es => simp [JsVal.isMapLike] at h
  | obj o => simp [JsVal.isMapLike] at h

theorem addCore_idem (config d : JsVal) (k : String)
    (h : addArbitrumCore config k = .ok d) : addArbitrumCore d k = .ok d := by
  cases config with
  | null => simp [addCore_root_prim (JsVal.null) k rfl] at h
  | bool b => simp [addCore_root_prim (JsVal.bool b) k rfl] at h
  | num n => simp [addCore_root_prim (JsVal.num n) k rfl] at h
  | str s => simp [addCore_root_prim (JsVal.str s) k rfl] at h
  | arr es =>
    rw [addCore_root_arr] at h
    cases h
    exact addCore_root_arr es k
  | obj top =>
    by_cases ht : jsTruthy (objGet top k) = true
    · cases hv : objGet top k with
      | none => rw [hv] at ht; simp [jsTruthy] at ht
      | some v =>
        cases v with
        | null => rw [hv] at ht; simp [jsTruthy, JsVal.truthy] at ht
        | bool b =>
          rw [addCore_primTruthy top k _ hv (by rw [hv] at ht; simpa [jsTruthy] using ht) rfl] at h
          cases h
        | num n =>
          rw [addCore_primTruthy top k _ hv (by rw [hv] at ht; simpa [jsTruthy] using ht) rfl] at h
          cases h
        | str s =>
          rw [addCore_primTruthy top k _ hv (by rw [hv] at ht; simpa [jsTruthy] using ht) rfl] at h
          cases h
        | arr es =>
          rw [addCore_arrVal top es k hv] at h
          cases h
          rw [addCore_arrVal _ es k (objGet_objSet_self top k _)]
          rw [objSet_objSet_same]
        | obj m =>
          rw [addCore_objVal top m k hv] at h
          cases h
          rw [addCore_objVal _ (objSet m "arbitrum" generateMcpServerEntry) k
            (objGet_objSet_self top k _)]
          rw [objSet_objSet_same, objSet_objSet_same]
    · have ht' : jsTruthy (objGet top k) = false := by
        cases hb : jsTruthy (objGet top k)
        · rfl
        · exact absurd hb ht
      rw [addCore_falsyKey top k ht'] at h
      cases h
      rw [addCore_objVal _ [("arbitrum", generateMcpServerEntry)] k
        (objGet_objSet_self top k _)]
      rw [objSet_objSet_same]
      have : objSet [("arbitrum", generateMcpServerEntry)] "arbitrum" generateMcpServerEntry
          = [("arbitrum", generateMcpServerEntry)] := by simp [objSet]
      rw [this]

theorem readJson_write (fs : JsonFS) (p : String) (d : JsVal) :
    readJsonConfig (writeJsonConfig fs p d) p = d := by
  simp [readJsonConfig, writeJsonConfig]

theorem jsonExists_write (fs : JsonFS) (p : String) (d : JsVal) :
    jsonFileExists (writeJsonConfig fs p d) p = true := by
  simp [jsonFileExists, writeJsonConfig]

theorem writeJson_writeJson (fs : JsonFS) (p : String) (d : JsVal) :
    writeJsonConfig (writeJsonConfig fs p d) p d = writeJsonConfig fs p d := by
  funext q
  by_cases h : q = p
  · simp [writeJsonConfig, h]
  · simp [writeJsonConfig, h]

theorem readToml_write (fs : TomlFS) (p : String) (d : List (String × TomlVal)) :
    readTomlConfig (writeTomlConfig fs p d) p = .table d := by
  simp [readTomlConfig, writeTomlConfig]

theorem tomlExists_write (fs : TomlFS) (p : String) (d : List (String × TomlVal)) :
    tomlFileExists (writeTomlConfig fs p d) p = true := by
  simp [tomlFileExists, writeTomlConfig]

theorem addTomlCore_falsyKey (top : List (String × TomlVal)) (k : String)
    (h : tomlTruthy (objGet top k) = false) :
    addArbitrumTomlCore (.table top) k =
      .ok (.table (objSet top k (.table [("arbitrum", generateTomlMcpServerEntry)]))) := by
  simp [addArbitrumTomlCore, tomlGetProp, h, tomlSetProp, objSetT, bind, Except.bind,
    pure, Except.pure, objSet_objSet_same, objSet]

theorem addTomlCore_tableVal (top m : List (String × TomlVal)) (k : String)
    (h : objGet top k = some (.table m)) :
    addArbitrumTomlCore (.table top) k =
      .ok (.table (objSet top k
        (.table (objSet m "arbitrum" generateTomlMcpServerEntry)))) := by
  simp [addArbitrumTomlCore, tomlGetProp, h, tomlTruthy, TomlVal.truthy, tomlSetProp,
    objSetT, bind, Except.bind, pure, Except.pure]

theorem addTomlCore_primTruthy (top : List (String × TomlVal)) (k : String) (v : TomlVal)
    (h : objGet top k = some v) (ht : v.truthy = true) (hm : v.isMapLike = false) :
    addArbitrumTomlCore (.table top) k =
      .error "TypeError: cannot create property on a primitive value" := by
  cases v with
  | bool b =>
    simp [addArbitrumTomlCore, tomlGetProp, h, tomlTruthy, ht, tomlSetProp, bind,
      Except.bind, pure, Except.pure]
  | int n =>
    simp [addArbitrumTomlCore, tomlGetProp, h, tomlTruthy, ht, tomlSetProp, bind,
      Except.bind, pure, Except.pure]
  | str s =>
    simp [addArbitrumTomlCore, tomlGetProp, h, tomlTruthy, ht, tomlSetProp, bind,
      Except.bind, pure, Except.pure]
  | arr es => simp [TomlVal.isMapLike] at hm
  | table o => simp [TomlVal.isMapLike] at hm

theorem removeTomlCore_found (top m : List (String × TomlVal)) (k : String) (v : TomlVal)
    (hm : objGet top k = some (.table m)) (hv : objGet m "arbitrum" = some v)
    (ht : v.truthy = true) :
    removeArbitrumTomlCore (.table top) k =
      some (if (objDel m "arbitrum").length = 0 then .table (objDel top k)
            else .table (objSet top k (.table (objDel m "arbitrum")))) := by
  simp only [removeArbitrumTomlCore, tomlGetProp, hm, Option.getD_some, tomlTruthy, hv,
    ht, if_true, tomlDelProp, tomlKeysLength, objSetT]
  simp [TomlVal.truthy]

/-- C1: for every JSON-format platform of the registry and a global
config path whose file does not exist, install succeeds, creates the
file, and the resulting document is exactly
configKey to (arbitrum to the generated entry), where the entry is
command npx with args -y arbitrum-mcp-tools serve and no env field. -/
theorem c1_fresh_global_json_install (pid : String) (p : PlatformConfig)
    (hmem : (pid, p) ∈ platforms) (hfmt : p.format = .json)
    (os : OS) (homeDir : String) (env : WinEnv) (cwd : String) (st : SysState)
    (cp : String) (hcp : getConfigPath os homeDir env cwd p .global = .ok cp)
    (habs : st.jfs cp = .absent) :
    ∃ st2 : SysState,
      installToPlatform os homeDir env cwd pid p .global st =
        .ok ({ success := true, path := cp, error := none }, st2) ∧
      st2.jfs cp = .stored (.obj [(p.configKey,
        .obj [("arbitrum", generateMcpServerEntry)])]) ∧
      jsGetProp generateMcpServerEntry "env" = none := by
  have hread : readJsonConfig st.jfs cp = .obj [] := by simp [readJsonConfig, habs]
  have hcore := addCore_falsyKey [] p.configKey (by simp [objGet, jsTruthy])
  simp only [objSet] at hcore
  refine ⟨⟨writeJsonConfig st.jfs cp
      (.obj [(p.configKey, .obj [("arbitrum", generateMcpServerEntry)])]), st.tfs⟩, ?_, ?_, rfl⟩
  · simp [installToPlatform, hcp, hfmt, addArbitrumToJsonConfig, hread, hcore,
      bind, Except.bind, pure, Except.pure]
  · simp [writeJsonConfig]

/-- C2: for every config document containing arbitrary unrelated
top-level keys and arbitrary sibling entries under configKey (and
possibly an existing arbitrum entry), addServerEntry followed by a read
yields a document in which every unrelated top-level key and every
sibling entry under configKey is unchanged; only the arbitrum entry
under configKey differs.  Stated for both the JSON and TOML codecs. -/
theorem c2_roundtrip_frame :
    (∀ (fs : JsonFS) (fp key : String) (top m : List (String × JsVal)),
      fs fp = .stored (.obj top) → objGet top key = some (.obj m) →
      ∃ top2 m2,
        readJsonConfig (addArbitrumToJsonConfig fs fp key).2 fp = .obj top2 ∧
        (∀ k2, k2 ≠ key → objGet top2 k2 = objGet top k2) ∧
        objGet top2 key = some (.obj m2) ∧
        (∀ k2, k2 ≠ "arbitrum" → objGet m2 k2 = objGet m k2)) ∧
    (∀ (fs : TomlFS) (fp key : String) (top m : List (String × TomlVal)),
      fs fp = .stored top → objGet top key = some (.table m) →
      ∃ top2 m2,
        readTomlConfig (addArbitrumToTomlConfig fs fp key).2 fp = .table top2 ∧
        (∀ k2, k2 ≠ key → objGet top2 k2 = objGet top k2) ∧
        objGet top2 key = some (.table m2) ∧
        (∀ k2, k2 ≠ "arbitrum" → objGet m2 k2 = objGet m k2)) := by
  constructor
  · intro fs fp key top m hstored hkey
    have hread : readJsonConfig fs fp = .obj top := by simp [readJsonConfig, hstored]
    have hcore := addCore_objVal top m key hkey
    refine ⟨objSet top key (.obj (objSet m "arbitrum" generateMcpServerEntry)),
            objSet m "arbitrum" generateMcpServerEntry, ?_, ?_, objGet_objSet_self _ _ _, ?_⟩
    · simp [addArbitrumToJsonConfig, hread, hcore, readJson_write]
    · intro k2 hk2
      exact objGet_objSet_ne _ _ _ _ hk2
    · intro k2 hk2
      exact objGet_objSet_ne _ _ _ _ hk2
  · intro fs fp key top m hstored hkey
    have hread : readTomlConfig fs fp = .table top := by simp [readTomlConfig, hstored]
    have hcore := addTomlCore_tableVal top m key hkey
    refine ⟨objSet top key (.table (objSet m "arbitrum" generateTomlMcpServerEntry)),
            objSet m "arbitrum" generateTomlMcpServerEntry, ?_, ?_, objGet_objSet_self _ _ _, ?_⟩
    · simp [addArbitrumToTomlConfig, hread, hcore, readToml_write]
    · intro k2 hk2
      exact objGet_objSet_ne _ _ _ _ hk2
    · intro k2 hk2
      exact objGet_objSet_ne _ _ _ _ hk2

/-- C5: for every file path, read (for both the JSON and the TOML
codec) returns an empty document and does not throw whenever the file
does not exist or exists but fails to parse; both cases yield the same
empty document, so callers cannot distinguish them at this layer. -/
theorem c5_read_resilience (jfs : JsonFS) (tfs : TomlFS) (p : String) :
    (jfs p = .absent → readJsonConfig jfs p = .obj []) ∧
    (jfs p = .invalid → readJsonConfig jfs p = .obj []) ∧
    (tfs p = .absent → readTomlConfig tfs p = .table []) ∧
    (tfs p = .invalid → readTomlConfig tfs p = .table []) := by
  refine ⟨?_, ?_, ?_, ?_⟩ <;> intro h <;> simp [readJsonConfig, readTomlConfig, h]

theorem c5_witness :
    readJsonConfig fsAbsent "x" = .obj [] ∧ readTomlConfig tfsInvalid "x" = .table [] :=
  ⟨(c5_read_resilience fsAbsent tfsInvalid "x").1 rfl,
   (c5_read_resilience fsAbsent tfsInvalid "x").2.2.2 rfl⟩

theorem c1_witness :
    ∃ st2 : SysState,
      installToPlatform .linux "/home/u" winEnvUnset "/w" "claude-desktop" claudeDesktopCfg
          .global emptyHost =
        .ok ({ success := true,
               path := "/home/u/.config/Claude/claude_desktop_config.json",
               error := none }, st2) ∧
      st2.jfs "/home/u/.config/Claude/claude_desktop_config.json" =
        .stored (.obj [("mcpServers", .obj [("arbitrum", generateMcpServerEntry)])]) ∧
      jsGetProp generateMcpServerEntry "env" = none :=
  c1_fresh_global_json_install "claude-desktop" claudeDesktopCfg (by decide) rfl
    .linux "/home/u" winEnvUnset "/w" emptyHost
    "/home/u/.config/Claude/claude_desktop_config.json" rfl rfl

theorem c2_witness :
    (∃ top2 m2,
      readJsonConfig (addArbitrumToJsonConfig c2WitnessFS "cfg.json" "mcpServers").2
          "cfg.json" = .obj top2 ∧
      (∀ k2, k2 ≠ "mcpServers" → objGet top2 k2 =
        objGet [("keep", JsVal.num 7),
                ("mcpServers", JsVal.obj [("other", .obj []), ("arbitrum", .str "old")])] k2) ∧
      objGet top2 "mcpServers" = some (.obj m2) ∧
      (∀ k2, k2 ≠ "arbitrum" → objGet m2 k2 =
        objGet [("other", JsVal.obj []), ("arbitrum", JsVal.str "old")] k2)) ∧
    (∃ top2 m2,
      readTomlConfig (addArbitrumToTomlConfig c2TomlWitnessFS "config.toml" "mcp_servers").2
          "config.toml" = .table top2 ∧
      (∀ k2, k2 ≠ "mcp_servers" → objGet top2 k2 =
        objGet [("other_key", TomlVal.str "keep"),
                ("mcp_servers", TomlVal.table [("old", .table [])])] k2) ∧
      objGet top2 "mcp_servers" = some (.table m2) ∧
      (∀ k2, k2 ≠ "arbitrum" → objGet m2 k2 =
        objGet [("old", TomlVal.table [])] k2)) :=
  ⟨c2_roundtrip_frame.1 c2WitnessFS "cfg.json" "mcpServers"
    [("keep", .num 7), ("mcpServers", .obj [("other", .obj []), ("arbitrum", .str "old")])]
    [("other", .obj []), ("arbitrum", .str "old")] rfl rfl,
   c2_roundtrip_frame.2 c2TomlWitnessFS "config.toml" "mcp_servers"
    [("other_key", .str "keep"), ("mcp_servers", .table [("old", .table [])])]
    [("old", .table [])] rfl rfl⟩

theorem removeCore_found (top m : List (String × JsVal)) (k : String) (v : JsVal)
    (hm : objGet top k = some (.obj m)) (hv : objGet m "arbitrum" = some v)
    (ht : v.truthy = true) :
    removeArbitrumCore (.obj top) k =
      some (if (objDel m "arbitrum").length = 0 then .obj (objDel top k)
            else .obj (objSet top k (.obj (objDel m "arbitrum")))) := by
  simp only [removeArbitrumCore, jsGetProp, hm, Option.getD_some, jsTruthy, hv, ht,
    if_true, jsDelProp, jsKeysLength, objSetJ]
  simp [JsVal.truthy]

/-- C3 counterexample: on a document whose arbitrum entry exists under
configKey but is falsy (false), removeServerEntry returns false and
deletes nothing, contradicting the claim that it always returns true
when arbitrum exists. -/
theorem c3_counterexample :
    (removeArbitrumFromJsonConfig c3CounterFS "cfg.json" "mcpServers").1 = false ∧
    readJsonConfig (removeArbitrumFromJsonConfig c3CounterFS "cfg.json" "mcpServers").2
      "cfg.json" = .obj [("mcpServers", .obj [("arbitrum", .bool false)])] :=
  ⟨rfl, rfl⟩

/-- C3: for every config document in which a (truthy) arbitrum entry
exists under configKey, removeServerEntry returns true; if arbitrum was
the only entry under configKey the whole configKey mapping is deleted
and the rest of the document is preserved, otherwise only arbitrum is
deleted and all siblings remain.  Stated for both codecs. -/
theorem c3_uninstall_cleanup :
    (∀ (fs : JsonFS) (fp key : String) (top m : List (String × JsVal)) (v : JsVal),
      fs fp = .stored (.obj top) → objGet top key = some (.obj m) →
      objGet m "arbitrum" = some v → v.truthy = true →
      (removeArbitrumFromJsonConfig fs fp key).1 = true ∧
      readJsonConfig (removeArbitrumFromJsonConfig fs fp key).2 fp =
        (if (objDel m "arbitrum").length = 0 then .obj (objDel top key)
         else .obj (objSet top key (.obj (objDel m "arbitrum")))) ∧
      objGet (objDel top key) key = none ∧
      (∀ k2, k2 ≠ key → objGet (objDel top key) k2 = objGet top k2) ∧
      objGet (objSet top key (.obj (objDel m "arbitrum"))) key =
        some (.obj (objDel m "arbitrum")) ∧
      (∀ k2, k2 ≠ key →
        objGet (objSet top key (.obj (objDel m "arbitrum"))) k2 = objGet top k2) ∧
      objGet (objDel m "arbitrum") "arbitrum" = none ∧
      (∀ k2, k2 ≠ "arbitrum" → objGet (objDel m "arbitrum") k2 = objGet m k2)) ∧
    (∀ (fs : TomlFS) (fp key : String) (top m : List (String × TomlVal)) (v : TomlVal),
      fs fp = .stored top → objGet top key = some (.table m) →
      objGet m "arbitrum" = some v → v.truthy = true →
      (removeArbitrumFromTomlConfig fs fp key).1 = true ∧
      readTomlConfig (removeArbitrumFromTomlConfig fs fp key).2 fp =
        (if (objDel m "arbitrum").length = 0 then .table (objDel top key)
         else .table (objSet top key (.table (objDel m "arbitrum")))) ∧
      objGet (objDel top key) key = none ∧
      (∀ k2, k2 ≠ key → objGet (objDel top key) k2 = objGet top k2) ∧
      objGet (objDel m "arbitrum") "arbitrum" = none ∧
      (∀ k2, k2 ≠ "arbitrum" → objGet (objDel m "arbitrum") k2 = objGet m k2)) := by
  constructor
  · intro fs fp key top m v hstored hkey hentry htruthy
    have hread : readJsonConfig fs fp = .obj top := by simp [readJsonConfig, hstored]
    have hex : jsonFileExists fs fp = true := by simp [jsonFileExists, hstored]
    have hcore := removeCore_found top m key v hkey hentry htruthy
    refine ⟨?_, ?_, objGet_objDel_self _ _, fun k2 hk2 => objGet_objDel_ne _ _ _ hk2,
      objGet_objSet_self _ _ _, fun k2 hk2 => objGet_objSet_ne _ _ _ _ hk2,
      objGet_objDel_self _ _, fun k2 hk2 => objGet_objDel_ne _ _ _ hk2⟩
    · simp [removeArbitrumFromJsonConfig, hex, hread, hcore]
    · by_cases hlen : (objDel m "arbitrum").length = 0
      · simp [removeArbitrumFromJsonConfig, hex, hread, hcore, hlen, readJson_write]
      · simp [removeArbitrumFromJsonConfig, hex, hread, hcore, hlen, readJson_write]
  · intro fs fp key top m v hstored hkey hentry htruthy
    have hread : readTomlConfig fs fp = .table top := by simp [readTomlConfig, hstored]
    have hex : tomlFileExists fs fp = true := by simp [tomlFileExists, hstored]
    have hcore := removeTomlCore_found top m key v hkey hentry htruthy
    refine ⟨?_, ?_, objGet_objDel_self _ _, fun k2 hk2 => objGet_objDel_ne _ _ _ hk2,
      objGet_objDel_self _ _, fun k2 hk2 => objGet_objDel_ne _ _ _ hk2⟩
    · by_cases hlen : (objDel m "arbitrum").length = 0
      · simp [removeArbitrumFromTomlConfig, hex, hread, hcore, hlen]
      · simp [removeArbitrumFromTomlConfig, hex, hread, hcore, hlen]
    · by_cases hlen : (objDel m "arbitrum").length = 0
      · simp [removeArbitrumFromTomlConfig, hex, hread, hcore, hlen, readToml_write]
      · simp [removeArbitrumFromTomlConfig, hex, hread, hcore, hlen, readToml_write]

theorem c3_witness :
    ((removeArbitrumFromJsonConfig c3WitnessFS "cfg.json" "mcpServers").1 = true ∧
     readJsonConfig (removeArbitrumFromJsonConfig c3WitnessFS "cfg.json" "mcpServers").2
       "cfg.json" = .obj [("keep", .str "x"), ("mcpServers", .obj [("other", .obj [])])]) ∧
    ((removeArbitrumFromTomlConfig c3TomlWitnessFS "config.toml" "mcp_servers").1 = true ∧
     readTomlConfig (removeArbitrumFromTomlConfig c3TomlWitnessFS "config.toml"
       "mcp_servers").2 "config.toml" = .table [("other_key", .str "x")]) := by
  have h := c3_uninstall_cleanup.1 c3WitnessFS "cfg.json" "mcpServers"
    [("keep", .str "x"),
     ("mcpServers", .obj [("arbitrum", generateMcpServerEntry), ("other", .obj [])])]
    [("arbitrum", generateMcpServerEntry), ("other", .obj [])]
    generateMcpServerEntry rfl rfl rfl rfl
  have h2 := c3_uninstall_cleanup.2 c3TomlWitnessFS "config.toml" "mcp_servers"
    [("other_key", .str "x"),
     ("mcp_servers", .table [("arbitrum", generateTomlMcpServerEntry)])]
    [("arbitrum", generateTomlMcpServerEntry)]
    generateTomlMcpServerEntry rfl rfl rfl rfl
  refine ⟨⟨h.1, ?_⟩, ⟨h2.1, ?_⟩⟩
  · rw [h.2.1]
    rfl
  · rw [h2.2.1]
    rfl

theorem add_entry_of_shape (fs : JsonFS) (fp key : String)
    (h : addShapeOk (readJsonConfig fs fp) key = true) :
    (addArbitrumToJsonConfig fs fp key).1 = true ∧
    ∃ top2, readJsonConfig (addArbitrumToJsonConfig fs fp key).2 fp = .obj top2 ∧
      ∃ m2, objGet top2 key = some (.obj m2) ∧
        objGet m2 "arbitrum" = some generateMcpServerEntry := by
  cases hc : readJsonConfig fs fp with
  | null => rw [hc] at h; simp [addShapeOk] at h
  | bool b => rw [hc] at h; simp [addShapeOk] at h
  | num n => rw [hc] at h; simp [addShapeOk] at h
  | str s => rw [hc] at h; simp [addShapeOk] at h
  | arr es => rw [hc] at h; simp [addShapeOk] at h
  | obj top =>
    rw [hc] at h
    cases hv : objGet top key with
    | none =>
      have hcore := addCore_falsyKey top key (by rw [hv]; rfl)
      refine ⟨?_, objSet top key (.obj [("arbitrum", generateMcpServerEntry)]), ?_,
        [("arbitrum", generateMcpServerEntry)], objGet_objSet_self _ _ _, by simp [objGet]⟩
      · simp [addArbitrumToJsonConfig, hc, hcore]
      · simp [addArbitrumToJsonConfig, hc, hcore, readJson_write]
    | some v =>
      cases v with
      | obj m =>
        have hcore := addCore_objVal top m key hv
        refine ⟨?_, objSet top key (.obj (objSet m "arbitrum" generateMcpServerEntry)), ?_,
          objSet m "arbitrum" generateMcpServerEntry, objGet_objSet_self _ _ _,
          objGet_objSet_self _ _ _⟩
        · simp [addArbitrumToJsonConfig, hc, hcore]
        · simp [addArbitrumToJsonConfig, hc, hcore, readJson_write]
      | arr es => simp [addShapeOk, hv, JsVal.truthy] at h
      | null =>
        have hcore := addCore_falsyKey top key (by rw [hv]; rfl)
        refine ⟨?_, objSet top key (.obj [("arbitrum", generateMcpServerEntry)]), ?_,
          [("arbitrum", generateMcpServerEntry)], objGet_objSet_self _ _ _, by simp [objGet]⟩
        · simp [addArbitrumToJsonConfig, hc, hcore]
        · simp [addArbitrumToJsonConfig, hc, hcore, readJson_write]
      | bool b =>
        have hb : b = false := by
          simp [addShapeOk, hv, JsVal.truthy] at h
          exact h
        subst hb
        have hcore := addCore_falsyKey top key (by rw [hv]; rfl)
        refine ⟨?_, objSet top key (.obj [("arbitrum", generateMcpServerEntry)]), ?_,
          [("arbitrum", generateMcpServerEntry)], objGet_objSet_self _ _ _, by simp [objGet]⟩
        · simp [addArbitrumToJsonConfig, hc, hcore]
        · simp [addArbitrumToJsonConfig, hc, hcore, readJson_write]
      | num n =>
        have hn : n = 0 := by
          simp [addShapeOk, hv, JsVal.truthy] at h
          exact h
        subst hn
        have hcore := addCore_falsyKey top key (by rw [hv]; simp [jsTruthy, JsVal.truthy])
        refine ⟨?_, objSet top key (.obj [("arbitrum", generateMcpServerEntry)]), ?_,
          [("arbitrum", generateMcpServerEntry)], objGet_objSet_self _ _ _, by simp [objGet]⟩
        · simp [addArbitrumToJsonConfig, hc, hcore]
        · simp [addArbitrumToJsonConfig, hc, hcore, readJson_write]
      | str s =>
        have hs : s = "" := by
          simp [addShapeOk, hv, JsVal.truthy] at h
          exact h
        subst hs
        have hcore := addCore_falsyKey top key (by rw [hv]; simp [jsTruthy, JsVal.truthy])
        refine ⟨?_, objSet top key (.obj [("arbitrum", generateMcpServerEntry)]), ?_,
          [("arbitrum", generateMcpServerEntry)], objGet_objSet_self _ _ _, by simp [objGet]⟩
        · simp [addArbitrumToJsonConfig, hc, hcore]
        · simp [addArbitrumToJsonConfig, hc, hcore, readJson_write]

theorem add_installed_of_shape (fs : JsonFS) (fp key : String)
    (h : addShapeOk (readJsonConfig fs fp) key = true) :
    isArbitrumInstalledInJsonConfig (addArbitrumToJsonConfig fs fp key).2 fp key = true := by
  obtain ⟨hsucc, top2, hread2, m2, hkey2, harb2⟩ := add_entry_of_shape fs fp key h
  have hex : jsonFileExists (addArbitrumToJsonConfig fs fp key).2 fp = true := by
    cases hcore : addArbitrumCore (readJsonConfig fs fp) key with
    | ok d => simp [addArbitrumToJsonConfig, hcore, jsonExists_write]
    | error e =>
      rw [addArbitrumToJsonConfig] at hsucc
      rw [hcore] at hsucc
      simp at hsucc
  simp [isArbitrumInstalledInJsonConfig, hex, hread2, jsGetProp, hkey2, jsTruthy,
    JsVal.truthy, harb2, generateMcpServerEntry]

/-- C4 amended: running addServerEntry twice in a row yields a stored
filesystem state identical to running it once, for every initial state;
and isServerInstalled is true after either one or two installs provided
the initial document is an object whose configKey value is absent,
falsy, or a mapping (a truthy non-mapping value makes the install fail
and isServerInstalled stay false). -/
theorem c4_idempotent_install (fs : JsonFS) (fp key : String) :
    ((addArbitrumToJsonConfig ((addArbitrumToJsonConfig fs fp key).2) fp key).2
       = (addArbitrumToJsonConfig fs fp key).2) ∧
    (addShapeOk (readJsonConfig fs fp) key = true →
      isArbitrumInstalledInJsonConfig (addArbitrumToJsonConfig fs fp key).2 fp key = true ∧
      isArbitrumInstalledInJsonConfig
        (addArbitrumToJsonConfig ((addArbitrumToJsonConfig fs fp key).2) fp key).2
        fp key = true) := by
  have htwice :
      (addArbitrumToJsonConfig ((addArbitrumToJsonConfig fs fp key).2) fp key).2
        = (addArbitrumToJsonConfig fs fp key).2 := by
    cases hcore : addArbitrumCore (readJsonConfig fs fp) key with
    | error e => simp [addArbitrumToJsonConfig, hcore]
    | ok d =>
      have hidem : addArbitrumCore d key = .ok d := addCore_idem _ _ _ hcore
      simp [addArbitrumToJsonConfig, hcore, readJson_write, hidem, writeJson_writeJson]
  refine ⟨htwice, fun h => ⟨add_installed_of_shape fs fp key h, ?_⟩⟩
  rw [htwice]
  exact add_installed_of_shape fs fp key h

/-- C4 counterexample: when the initial document holds a truthy string
under configKey, isServerInstalled is still false after an install,
contradicting the claim that it is true after any install. -/
theorem c4_counterexample :
    isArbitrumInstalledInJsonConfig (addArbitrumToJsonConfig c4CounterFS "cfg.json"
      "mcpServers").2 "cfg.json" "mcpServers" = false := rfl

theorem c4_witness :
    isArbitrumInstalledInJsonConfig (addArbitrumToJsonConfig c4WitnessFS "cfg.json"
      "mcpServers").2 "cfg.json" "mcpServers" = true :=
  ((c4_idempotent_install c4WitnessFS "cfg.json" "mcpServers").2 rfl).1

/-- C6 counterexample: on a document whose configKey holds the truthy
string oops, addServerEntry does not replace it with a mapping: it
returns false and leaves the document unchanged, contradicting the
claim that configKey is ensured to be a mapping whenever it is not. -/
theorem c6_counterexample :
    (addArbitrumToJsonConfig c6CounterFS "cfg.json" "mcpServers").1 = false ∧
    readJsonConfig (addArbitrumToJsonConfig c6CounterFS "cfg.json" "mcpServers").2
      "cfg.json" = .obj [("mcpServers", .str "oops"), ("keep", .num 7)] :=
  ⟨rfl, rfl⟩

/-- C6 amended: addServerEntry replaces document[configKey] with a
fresh mapping only when it is absent or falsy; when it holds a truthy
value that is neither a mapping nor an array, the strict-mode property
assignment throws, the error is caught, and false is returned with the
file unchanged; when it holds an array the assignment succeeds but
serialization drops the entry and true is returned; in the absent,
falsy and mapping cases the arbitrum entry is stored and true is
returned.  The operation never throws to its caller.  Stated for both
codecs. -/
theorem c6_ensure_mapping :
    (∀ (fs : JsonFS) (fp key : String),
      addShapeOk (readJsonConfig fs fp) key = true →
      (addArbitrumToJsonConfig fs fp key).1 = true ∧
      ∃ top2, readJsonConfig (addArbitrumToJsonConfig fs fp key).2 fp = .obj top2 ∧
        ∃ m2, objGet top2 key = some (.obj m2) ∧
          objGet m2 "arbitrum" = some generateMcpServerEntry) ∧
    (∀ (fs : JsonFS) (fp key : String) (top : List (String × JsVal)) (v : JsVal),
      readJsonConfig fs fp = .obj top → objGet top key = some v →
      v.truthy = true → v.isMapLike = false →
      (addArbitrumToJsonConfig fs fp key).1 = false ∧
      (addArbitrumToJsonConfig fs fp key).2 = fs) ∧
    (∀ (fs : JsonFS) (fp key : String) (top : List (String × JsVal)) (es : List JsVal),
      readJsonConfig fs fp = .obj top → objGet top key = some (.arr es) →
      (addArbitrumToJsonConfig fs fp key).1 = true ∧
      readJsonConfig (addArbitrumToJsonConfig fs fp key).2 fp =
        .obj (objSet top key (.arr es)) ∧
      jsGetProp (.arr es) "arbitrum" = none) ∧
    (∀ (fs : TomlFS) (fp key : String) (top : List (String × TomlVal)),
      readTomlConfig fs fp = .table top → tomlTruthy (objGet top key) = false →
      (addArbitrumToTomlConfig fs fp key).1 = true ∧
      readTomlConfig (addArbitrumToTomlConfig fs fp key).2 fp =
        .table (objSet top key (.table [("arbitrum", generateTomlMcpServerEntry)]))) ∧
    (∀ (fs : TomlFS) (fp key : String) (top m : List (String × TomlVal)),
      readTomlConfig fs fp = .table top → objGet top key = some (.table m) →
      (addArbitrumToTomlConfig fs fp key).1 = true ∧
      readTomlConfig (addArbitrumToTomlConfig fs fp key).2 fp =
        .table (objSet top key (.table (objSet m "arbitrum" generateTomlMcpServerEntry)))) ∧
    (∀ (fs : TomlFS) (fp key : String) (top : List (String × TomlVal)) (v : TomlVal),
      readTomlConfig fs fp = .table top → objGet top key = some v →
      v.truthy = true → v.isMapLike = false →
      (addArbitrumToTomlConfig fs fp key).1 = false ∧
      (addArbitrumToTomlConfig fs fp key).2 = fs) := by
  refine ⟨fun fs fp key => add_entry_of_shape fs fp key, ?_, ?_, ?_, ?_, ?_⟩
  · intro fs fp key top v hread hv ht hm
    have hcore := addCore_primTruthy top key v hv ht hm
    constructor
    · simp [addArbitrumToJsonConfig, hread, hcore]
    · simp [addArbitrumToJsonConfig, hread, hcore]
  · intro fs fp key top es hread hv
    have hcore := addCore_arrVal top es key hv
    refine ⟨?_, ?_, rfl⟩
    · simp [addArbitrumToJsonConfig, hread, hcore]
    · simp [addArbitrumToJsonConfig, hread, hcore, readJson_write]
  · intro fs fp key top hread hfalsy
    have hcore := addTomlCore_falsyKey top key hfalsy
    constructor
    · simp [addArbitrumToTomlConfig, hread, hcore]
    · simp [addArbitrumToTomlConfig, hread, hcore, readToml_write]
  · intro fs fp key top m hread hv
    have hcore := addTomlCore_tableVal top m key hv
    constructor
    · simp [addArbitrumToTomlConfig, hread, hcore]
    · simp [addArbitrumToTomlConfig, hread, hcore, readToml_write]
  · intro fs fp key top v hread hv ht hm
    have hcore := addTomlCore_primTruthy top key v hv ht hm
    constructor
    · simp [addArbitrumToTomlConfig, hread, hcore]
    · simp [addArbitrumToTomlConfig, hread, hcore]

theorem c6_witness :
    (addArbitrumToJsonConfig c6CounterFS "cfg.json" "servers").1 = true ∧
    ∃ top2, readJsonConfig (addArbitrumToJsonConfig c6CounterFS "cfg.json" "servers").2
        "cfg.json" = .obj top2 ∧
      ∃ m2, objGet top2 "servers" = some (.obj m2) ∧
        objGet m2 "arbitrum" = some generateMcpServerEntry :=
  c6_ensure_mapping.1 c6CounterFS "cfg.json" "servers" rfl

/-- C7: the generated TOML server entry has command npx, args
-y arbitrum-mcp-tools serve, enabled true, and env_vars equal to
exactly the five secret variable names; codex is the only TOML platform
in the registry, every other platform is JSON, and the generated JSON
entry contains neither an env_vars nor an env key. -/
theorem c7_toml_env_vars :
    tomlGetProp generateTomlMcpServerEntry "command" = some (.str "npx") ∧
    tomlGetProp generateTomlMcpServerEntry "args" =
      some (.arr [.str "-y", .str "arbitrum-mcp-tools", .str "serve"]) ∧
    tomlGetProp generateTomlMcpServerEntry "enabled" = some (.bool true) ∧
    tomlGetProp generateTomlMcpServerEntry "env_vars" =
      some (.arr [.str "ALCHEMY_API_KEY", .str "ARBISCAN_API_KEY",
                  .str "STYLUS_PRIVATE_KEY", .str "STYLUS_PRIVATE_KEY_PATH",
                  .str "STYLUS_KEYSTORE_PATH"]) ∧
    (∀ pid p, (pid, p) ∈ platforms → p.format = .toml → pid = "codex") ∧
    (∀ pid p, (pid, p) ∈ platforms → pid ≠ "codex" → p.format = .json) ∧
    jsGetProp generateMcpServerEntry "env_vars" = none ∧
    jsGetProp generateMcpServerEntry "env" = none := by
  refine ⟨rfl, rfl, rfl, rfl, ?_, ?_, rfl, rfl⟩
  · intro pid p hmem hfmt
    simp only [platforms, List.mem_cons, List.not_mem_nil, or_false, Prod.mk.injEq] at hmem
    rcases hmem with ⟨h1, h2⟩ | ⟨h1, h2⟩ | ⟨h1, h2⟩ | ⟨h1, h2⟩ | ⟨h1, h2⟩ | ⟨h1, h2⟩ | ⟨h1, h2⟩ <;>
      first
        | exact h1
        | (exfalso; rw [h2] at hfmt; exact absurd hfmt (by decide))
  · intro pid p hmem hpid
    simp only [platforms, List.mem_cons, List.not_mem_nil, or_false, Prod.mk.injEq] at hmem
    rcases hmem with ⟨h1, h2⟩ | ⟨h1, h2⟩ | ⟨h1, h2⟩ | ⟨h1, h2⟩ | ⟨h1, h2⟩ | ⟨h1, h2⟩ | ⟨h1, h2⟩ <;>
      first
        | (subst h2; rfl)
        | exact absurd h1 hpid

theorem c7_witness : claudeDesktopCfg.format = McpFormat.json :=
  c7_toml_env_vars.2.2.2.2.2.1 "claude-desktop" claudeDesktopCfg (by decide) (by decide)

/-- C8: the entry generators never read the process environment, so any
two runs under environments differing only in secret values produce
identical entries; the full set of string literals in each generated
entry is a fixed list of keys and variable names, hence no string
outside those fixed lists (in particular no secret value) ever occurs
in a generated entry. -/
theorem c8_no_secret_values :
    (∀ e1 e2 : String → String,
      generateMcpServerEntryWithEnv e1 = generateMcpServerEntryWithEnv e2) ∧
    (∀ e1 e2 : String → String,
      generateTomlMcpServerEntryWithEnv e1 = generateTomlMcpServerEntryWithEnv e2) ∧
    jsValStrings generateMcpServerEntry =
      ["command", "npx", "args", "-y", "arbitrum-mcp-tools", "serve"] ∧
    tomlValStrings generateTomlMcpServerEntry =
      ["command", "npx", "args", "-y", "arbitrum-mcp-tools", "serve", "enabled",
       "env_vars", "ALCHEMY_API_KEY", "ARBISCAN_API_KEY", "STYLUS_PRIVATE_KEY",
       "STYLUS_PRIVATE_KEY_PATH", "STYLUS_KEYSTORE_PATH"] ∧
    (∀ v : String,
      v ∉ ["command", "npx", "args", "-y", "arbitrum-mcp-tools", "serve"] →
      v ∉ jsValStrings generateMcpServerEntry) ∧
    (∀ v : String,
      v ∉ ["command", "npx", "args", "-y", "arbitrum-mcp-tools", "serve", "enabled",
           "env_vars", "ALCHEMY_API_KEY", "ARBISCAN_API_KEY", "STYLUS_PRIVATE_KEY",
           "STYLUS_PRIVATE_KEY_PATH", "STYLUS_KEYSTORE_PATH"] →
      v ∉ tomlValStrings generateTomlMcpServerEntry) := by
  have hj : jsValStrings generateMcpServerEntry =
      ["command", "npx", "args", "-y", "arbitrum-mcp-tools", "serve"] := by
    simp [generateMcpServerEntry, jsValStrings, jsListStrings, jsFieldsStrings]
  have ht : tomlValStrings generateTomlMcpServerEntry =
      ["command", "npx", "args", "-y", "arbitrum-mcp-tools", "serve", "enabled",
       "env_vars", "ALCHEMY_API_KEY", "ARBISCAN_API_KEY", "STYLUS_PRIVATE_KEY",
       "STYLUS_PRIVATE_KEY_PATH", "STYLUS_KEYSTORE_PATH"] := by
    simp [generateTomlMcpServerEntry, codexEnvVarNames, tomlValStrings,
      tomlListStrings, tomlFieldsStrings]
  refine ⟨fun _ _ => rfl, fun _ _ => rfl, hj, ht, ?_, ?_⟩
  · intro v hv
    rw [hj]
    exact hv
  · intro v hv
    rw [ht]
    exact hv

theorem c8_witness :
    "sk-test-1234567890" ∉ jsValStrings generateMcpServerEntry ∧
    "sk-test-1234567890" ∉ tomlValStrings generateTomlMcpServerEntry :=
  ⟨c8_no_secret_values.2.2.2.2.1 "sk-test-1234567890" (by decide),
   c8_no_secret_values.2.2.2.2.2 "sk-test-1234567890" (by decide)⟩

/-- C9 counterexample: for a descriptor whose global template for the
current OS is empty, installToPlatform propagates the path-resolution
throw to its caller instead of returning a success-false result,
because the config path is computed before the try block. -/
theorem c9_counterexample :
    installToPlatform .linux "/home/u" winEnvUnset "/w" "broken" c9BadPlatform .global
      emptyHost = .error ("Unsupported platform: " ++ "linux") := rfl

/-- C9 amended: install and uninstall never throw past the codec
dispatch, and whenever the scope is local or the descriptor has a
non-empty global template for the current OS they return an ok result
whose error field is none; only the path resolution that runs before
the try block can throw. -/
theorem c9_total_when_template_present (os : OS) (homeDir : String) (env : WinEnv)
    (cwd : String) (pid : String) (p : PlatformConfig) (scope : Scope) (st : SysState)
    (h : scope = Scope.localScope ∨ p.global.forOS os ≠ "") :
    (∃ r st2, installToPlatform os homeDir env cwd pid p scope st = .ok (r, st2) ∧
       r.error = none) ∧
    (∃ r st2, uninstallFromPlatform os homeDir env cwd pid p scope st = .ok (r, st2) ∧
       r.error = none) := by
  obtain ⟨cp, hcp⟩ : ∃ cp, getConfigPath os homeDir env cwd p scope = .ok cp := by
    cases scope with
    | localScope => exact ⟨_, rfl⟩
    | global =>
      rcases h with h | h
      · exact absurd h (by decide)
      · exact ⟨resolvePath os homeDir env (p.global.forOS os),
          by simp [getConfigPath, getGlobalConfigPath, h]⟩
  cases hfmt : p.format with
  | json =>
    refine ⟨⟨{ success := (addArbitrumToJsonConfig st.jfs cp p.configKey).1, path := cp,
               error := none },
             ⟨(addArbitrumToJsonConfig st.jfs cp p.configKey).2, st.tfs⟩, ?_, rfl⟩,
            ⟨{ success := (removeArbitrumFromJsonConfig st.jfs cp p.configKey).1, path := cp,
               error := none },
             ⟨(removeArbitrumFromJsonConfig st.jfs cp p.configKey).2, st.tfs⟩, ?_, rfl⟩⟩
    · simp [installToPlatform, hcp, hfmt, bind, Except.bind, pure, Except.pure]
    · simp [uninstallFromPlatform, hcp, hfmt, bind, Except.bind, pure, Except.pure]
  | toml =>
    refine ⟨⟨{ success := (addArbitrumToTomlConfig st.tfs cp p.configKey).1, path := cp,
               error := none },
             ⟨st.jfs, (addArbitrumToTomlConfig st.tfs cp p.configKey).2⟩, ?_, rfl⟩,
            ⟨{ success := (removeArbitrumFromTomlConfig st.tfs cp p.configKey).1, path := cp,
               error := none },
             ⟨st.jfs, (removeArbitrumFromTomlConfig st.tfs cp p.configKey).2⟩, ?_, rfl⟩⟩
    · simp [installToPlatform, hcp, hfmt, bind, Except.bind, pure, Except.pure]
    · simp [uninstallFromPlatform, hcp, hfmt, bind, Except.bind, pure, Except.pure]

theorem c9_witness :
    (∃ r st2, installToPlatform .linux "/home/u" winEnvUnset "/w" "claude-desktop"
        claudeDesktopCfg .global emptyHost = .ok (r, st2) ∧ r.error = none) ∧
    (∃ r st2, uninstallFromPlatform .linux "/home/u" winEnvUnset "/w" "claude-desktop"
        claudeDesktopCfg .global emptyHost = .ok (r, st2) ∧ r.error = none) :=
  c9_total_when_template_present .linux "/home/u" winEnvUnset "/w" "claude-desktop"
    claudeDesktopCfg .global emptyHost (Or.inr (by decide))

theorem strExt {s t : String} (h : s.data = t.data) : s = t := by
  cases s
  cases t
  exact congrArg String.mk h

theorem strMk_data (s : String) : String.mk s.data = s := by
  cases s
  rfl

theorem data_ne_nil_of_ne_empty {s : String} (h : s ≠ "") : s.data ≠ [] := by
  intro hd
  exact h (strExt (by simpa using hd))

theorem getLastMem {α : Type} {l : List α} {a : α} (h : l.getLast? = some a) : a ∈ l := by
  induction l with
  | nil => simp [List.getLast?] at h
  | cons c rest ih =>
    cases rest with
    | nil =>
      simp [List.getLast?] at h
      simp [h]
    | cons d rest2 =>
      rw [List.getLast?_cons_cons] at h
      exact List.mem_cons_of_mem c (ih h)

theorem subFind_head (pat rest : List Char) (c : Char) (cs : List Char)
    (hp : pat = c :: cs) : subFind (pat ++ rest) pat = some 0 := by
  subst hp
  rw [List.cons_append, subFind]
  · rw [if_pos]
    rw [List.isPrefixOf_iff_prefix, ← List.cons_append]
    exact List.prefix_append _ _
  · simp

theorem jsReplaceFirst_head (pat rest repl : String) (h : pat ≠ "") :
    jsReplaceFirst (pat ++ rest) pat repl = repl ++ rest := by
  have hd := data_ne_nil_of_ne_empty h
  obtain ⟨c, cs, hcc⟩ : ∃ c cs, pat.data = c :: cs := by
    cases hp : pat.data with
    | nil => exact absurd hp hd
    | cons c cs => exact ⟨c, cs, rfl⟩
  rw [jsReplaceFirst, String.data_append, subFind_head pat.data rest.data c cs hcc]
  apply strExt
  simp [String.data_append, List.drop_left]

theorem jsReplaceFirst_of_not_occurs (s pat repl : String)
    (h : strOccurs s pat = false) : jsReplaceFirst s pat repl = s := by
  rw [strOccurs] at h
  rw [jsReplaceFirst]
  cases hf : subFind s.data pat.data with
  | none => rfl
  | some i => rw [hf] at h; simp at h

theorem subFind_isSome_append_left (a b pat : List Char)
    (h : (subFind b pat).isSome = true) : (subFind (a ++ b) pat).isSome = true := by
  induction a with
  | nil => simpa using h
  | cons c a' ih =>
    cases pat with
    | nil => simp [subFind]
    | cons p ps =>
      rw [List.cons_append, subFind]
      · by_cases hp : (p :: ps).isPrefixOf (c :: (a' ++ b))
        · rw [if_pos hp]
          rfl
        · rw [if_neg hp]
          simpa [Option.isSome_map] using ih
      · simp

theorem strOccurs_append_left (a b pat : String)
    (h : strOccurs b pat = true) : strOccurs (a ++ b) pat = true := by
  rw [strOccurs, String.data_append]
  exact subFind_isSome_append_left a.data b.data pat.data h

theorem map_slash_id (l : List Char) (h : ∀ c ∈ l, c ≠ '\\') :
    l.map (fun c => if c = '\\' then '/' else c) = l := by
  induction l with
  | nil => rfl
  | cons c rest ih =>
    simp only [List.map_cons]
    rw [if_neg (h c (List.mem_cons_self c rest)),
        ih (fun d hd => h d (List.mem_cons_of_mem c hd))]

theorem splitSlash_cut (a rest cur : List Char) (h : ∀ c ∈ a, c ≠ '/') :
    splitSlash (a ++ '/' :: rest) cur = (cur.reverse ++ a) :: splitSlash rest [] := by
  induction a generalizing cur with
  | nil => simp [splitSlash]
  | cons c a' ih =>
    rw [List.cons_append, splitSlash, if_neg (h c (List.mem_cons_self c a'))]
    rw [ih (c :: cur) (fun d hd => h d (List.mem_cons_of_mem c hd))]
    simp

theorem splitSlash_last (a cur : List Char) (h : ∀ c ∈ a, c ≠ '/') :
    splitSlash a cur = [cur.reverse ++ a] := by
  induction a generalizing cur with
  | nil => simp [splitSlash]
  | cons c a' ih =>
    rw [splitSlash, if_neg (h c (List.mem_cons_self c a'))]
    rw [ih (c :: cur) (fun d hd => h d (List.mem_cons_of_mem c hd))]
    simp

theorem normSegs_keep (isAbs : Bool) (seg : String) (rest acc : List String)
    (h1 : seg ≠ "") (h2 : seg ≠ ".") (h3 : seg ≠ "..") :
    normSegs isAbs (seg :: rest) acc = normSegs isAbs rest (seg :: acc) := by
  rw [normSegs.eq_def]
  dsimp only
  rw [if_neg (not_or.mpr ⟨h1, h2⟩), if_neg h3]

theorem normSegs_nil (isAbs : Bool) (acc : List String) :
    normSegs isAbs [] acc = acc.reverse := by
  rw [normSegs.eq_def]

theorem plainSeg_ne_empty {s : String} (h : plainSeg s = true) : s ≠ "" := by
  rw [plainSeg, Bool.and_eq_true] at h
  simpa using h.1

theorem plainSeg_chars {s : String} (h : plainSeg s = true) :
    ∀ c ∈ s.data, c ≠ '/' ∧ c ≠ '\\' ∧ c ≠ '.' ∧ c ≠ '%' := by
  rw [plainSeg, Bool.and_eq_true, List.all_eq_true] at h
  intro c hc
  have := h.2 c hc
  simp only [Bool.and_eq_true, bne_iff_ne, ne_eq] at this
  exact ⟨this.1.1.1, this.1.1.2, this.1.2, this.2⟩

theorem plainSeg_ne_dot {s : String} (h : plainSeg s = true) : s ≠ "." := by
  intro hs
  subst hs
  exact (plainSeg_chars h '.' (by simp)).2.2.1 rfl

theorem plainSeg_ne_dotdot {s : String} (h : plainSeg s = true) : s ≠ ".." := by
  intro hs
  subst hs
  exact (plainSeg_chars h '.' (by simp)).2.2.1 rfl

theorem plainSeg_segOk {s : String} (h : plainSeg s = true) : segOk s = true := by
  rw [segOk]
  simp only [Bool.and_eq_true, List.all_eq_true, bne_iff_ne, ne_eq]
  refine ⟨⟨⟨plainSeg_ne_empty h, plainSeg_ne_dot h⟩, plainSeg_ne_dotdot h⟩, ?_⟩
  intro c hc
  have := plainSeg_chars h c hc
  exact ⟨this.1, this.2.1⟩

theorem segOk_ne_empty {s : String} (h : segOk s = true) : s ≠ "" := by
  rw [segOk] at h
  simp only [Bool.and_eq_true, bne_iff_ne, ne_eq] at h
  exact h.1.1.1

theorem segOk_ne_dot {s : String} (h : segOk s = true) : s ≠ "." := by
  rw [segOk] at h
  simp only [Bool.and_eq_true, bne_iff_ne, ne_eq] at h
  exact h.1.1.2

theorem segOk_ne_dotdot {s : String} (h : segOk s = true) : s ≠ ".." := by
  rw [segOk] at h
  simp only [Bool.and_eq_true, bne_iff_ne, ne_eq] at h
  exact h.1.2

theorem segOk_no_slash {s : String} (h : segOk s = true) : ∀ c ∈ s.data, c ≠ '/' := by
  rw [segOk] at h
  simp only [Bool.and_eq_true, List.all_eq_true, bne_iff_ne, ne_eq] at h
  exact fun c hc => (h.2 c hc).1

theorem segOk_no_backslash {s : String} (h : segOk s = true) : ∀ c ∈ s.data, c ≠ '\\' := by
  rw [segOk] at h
  simp only [Bool.and_eq_true, List.all_eq_true, bne_iff_ne, ne_eq] at h
  exact fun c hc => (h.2 c hc).2

theorem pathNormalize_segs4 (a b c d : String)
    (ha : segOk a = true) (hb : segOk b = true) (hc : segOk c = true)
    (hd : segOk d = true) :
    pathNormalize .win32 (a ++ "/" ++ b ++ "/" ++ c ++ "/" ++ d) =
      a ++ "\\" ++ b ++ "\\" ++ c ++ "\\" ++ d := by
  have hdata : (a ++ "/" ++ b ++ "/" ++ c ++ "/" ++ d).data =
      a.data ++ '/' :: (b.data ++ '/' :: (c.data ++ '/' :: d.data)) := by
    simp [String.data_append, List.append_assoc]
  have hmap : (a ++ "/" ++ b ++ "/" ++ c ++ "/" ++ d).data.map
      (fun ch => if ch = '\\' then '/' else ch) =
      a.data ++ '/' :: (b.data ++ '/' :: (c.data ++ '/' :: d.data)) := by
    rw [hdata]
    simp only [List.map_append, List.map_cons]
    rw [map_slash_id a.data (segOk_no_backslash ha),
        map_slash_id b.data (segOk_no_backslash hb),
        map_slash_id c.data (segOk_no_backslash hc),
        map_slash_id d.data (segOk_no_backslash hd)]
    norm_num
  have hsplit : splitSlash (a.data ++ '/' :: (b.data ++ '/' :: (c.data ++ '/' :: d.data))) []
      = [a.data, b.data, c.data, d.data] := by
    rw [splitSlash_cut a.data _ [] (segOk_no_slash ha)]
    rw [splitSlash_cut b.data _ [] (segOk_no_slash hb)]
    rw [splitSlash_cut c.data _ [] (segOk_no_slash hc)]
    rw [splitSlash_last d.data [] (segOk_no_slash hd)]
    simp
  have hsegs : normSegs false [a, b, c, d] [] = [a, b, c, d] := by
    rw [normSegs_keep false a _ _ (segOk_ne_empty ha) (segOk_ne_dot ha) (segOk_ne_dotdot ha)]
    rw [normSegs_keep false b _ _ (segOk_ne_empty hb) (segOk_ne_dot hb) (segOk_ne_dotdot hb)]
    rw [normSegs_keep false c _ _ (segOk_ne_empty hc) (segOk_ne_dot hc) (segOk_ne_dotdot hc)]
    rw [normSegs_keep false d _ _ (segOk_ne_empty hd) (segOk_ne_dot hd) (segOk_ne_dotdot hd)]
    rw [normSegs_nil]
    rfl
  obtain ⟨ea, eas, hea⟩ : ∃ e es, a.data = e :: es := by
    cases hp : a.data with
    | nil => exact absurd hp (data_ne_nil_of_ne_empty (segOk_ne_empty ha))
    | cons e es => exact ⟨e, es, rfl⟩
  obtain ⟨ed, hed⟩ : ∃ e, d.data.getLast? = some e := by
    cases hp : d.data.getLast? with
    | none =>
      rw [List.getLast?_eq_none_iff] at hp
      exact absurd hp (data_ne_nil_of_ne_empty (segOk_ne_empty hd))
    | some e => exact ⟨e, rfl⟩
  have hhead : (a.data ++ '/' :: (b.data ++ '/' :: (c.data ++ '/' :: d.data))).head? = some ea := by
    rw [hea]
    rfl
  have hlast : (a.data ++ '/' :: (b.data ++ '/' :: (c.data ++ '/' :: d.data))).getLast?
      = some ed := by
    have : a.data ++ '/' :: (b.data ++ '/' :: (c.data ++ '/' :: d.data)) =
        (a.data ++ '/' :: (b.data ++ '/' :: (c.data ++ ['/']))) ++ d.data := by
      simp [List.append_assoc]
    rw [this, List.getLast?_append_of_ne_nil _ (data_ne_nil_of_ne_empty (segOk_ne_empty hd))]
    exact hed
  have hisAbs : (ea == '/') = false := by
    have : ea ≠ '/' := segOk_no_slash ha ea (hea ▸ List.mem_cons_self ea eas)
    simpa using this
  have hends : (some ed == some '/') = false := by
    have : ed ≠ '/' := segOk_no_slash hd ed (getLastMem hed)
    simpa using this
  rw [pathNormalize]
  simp only [reduceIte, hmap, hsplit, hhead, hlast, hisAbs, List.map_cons, List.map_nil,
    strMk_data, hsegs, hends]
  simp only [Bool.false_and, Bool.if_false_left, List.isEmpty_cons, Bool.not_false,
    Bool.true_and, if_false, Bool.false_eq_true, List.isEmpty_nil]
  rw [joinSep, joinSep, joinSep, joinSep]
  · apply strExt
    simp [String.data_append, List.append_assoc]
  all_goals simp

theorem strStarts_tilde_false (s : String) (c : Char) (l : List Char)
    (hdata : s.data = c :: l) (hc : c ≠ '~') : strStarts s "~" = false := by
  rw [strStarts, hdata]
  show List.isPrefixOf ['~'] (c :: l) = false
  simp [List.isPrefixOf]
  exact fun hh => absurd hh.symm hc

theorem strStarts_tilde_true (rest : String) : strStarts ("~" ++ rest) "~" = true := by
  rw [strStarts, String.data_append]
  show List.isPrefixOf ['~'] (['~'] ++ rest.data) = true
  rw [List.singleton_append]
  simp [List.isPrefixOf]

theorem resolvePath_linux_plain (h : String) (env : WinEnv) (t : String)
    (hst : strStarts t "~" = false) :
    resolvePath .linux h env t = pathNormalize .linux t := by
  rw [resolvePath]
  simp only [hst, Bool.false_eq_true, if_false]
  rw [if_neg (by decide : ¬ (OS.linux = OS.win32))]

theorem resolvePath_win32_subst (h : String) (env : WinEnv) (t : String)
    (hst : strStarts t "~" = false) :
    resolvePath .win32 h env t =
      pathNormalize .win32 (jsReplaceFirst (jsReplaceFirst (jsReplaceFirst t
        "%APPDATA%" (jsOrElse env.appdata ""))
        "%USERPROFILE%" (jsOrElse env.userprofile h))
        "%LOCALAPPDATA%" (jsOrElse env.localappdata "")) := by
  rw [resolvePath]
  simp only [hst, Bool.false_eq_true, if_false]
  rw [if_pos trivial]

theorem appdata_head_data (u : String) :
    ("%APPDATA%" ++ u).data = '%' :: ("APPDATA%".data ++ u.data) := by
  rw [String.data_append]
  rfl

theorem userprofile_head_data (u : String) :
    ("%USERPROFILE%" ++ u).data = '%' :: ("USERPROFILE%".data ++ u.data) := by
  rw [String.data_append]
  rfl

theorem localappdata_head_data (u : String) :
    ("%LOCALAPPDATA%" ++ u).data = '%' :: ("LOCALAPPDATA%".data ++ u.data) := by
  rw [String.data_append]
  rfl

theorem empty_append_str (u : String) : "" ++ u = u := by
  apply strExt
  rw [String.data_append]
  rfl

/-- C10 counterexample: the template contains the APPDATA placeholder
twice, yet the returned path contains no occurrence of it at all: the
substitution leaves the second occurrence literal, but the dot-dot
segment that follows it makes path normalization drop its segment, so
it does not remain literal in the returned path. -/
theorem c10_counterexample :
    "%APPDATA%/x/%APPDATA%/../y" = "%APPDATA%" ++ "/x/%APPDATA%/../y" ∧
    strOccurs "/x/%APPDATA%/../y" "%APPDATA%" = true ∧
    resolvePath .win32 "C:/Users/u"
      { appdata := some "AD", userprofile := none, localappdata := none }
      "%APPDATA%/x/%APPDATA%/../y" = "AD\\x\\y" ∧
    strOccurs (resolvePath .win32 "C:/Users/u"
      { appdata := some "AD", userprofile := none, localappdata := none }
      "%APPDATA%/x/%APPDATA%/../y") "%APPDATA%" = false := by
  refine ⟨rfl, ?_, ?_, ?_⟩ <;> decide

/-- C10 amended: resolvePath expands the home shorthand only when the
tilde is the leading character of the template (any template, any home
directory), and on win32 substitutes only the first occurrence of each
placeholder: for any tail u, a template APPDATA-placeholder ++ u
resolves to the normalization of value ++ u with u verbatim, so a
second occurrence inside u stays literal in the value passed to
normalization, and for any slash-separated template of plain segments
it stays literal in the returned path; USERPROFILE falls back to the
home directory when unset while APPDATA and LOCALAPPDATA fall back to
the empty string. -/
theorem c10_first_occurrence_resolution :
    (∀ (h : String) (env : WinEnv) (t : String), strStarts t "~" = false →
      resolvePath .linux h env t = pathNormalize .linux t) ∧
    (∀ (h1 h2 s : String) (env : WinEnv) (t : String), strStarts t "~" = false →
      env.userprofile = some s → s ≠ "" →
      resolvePath .win32 h1 env t = resolvePath .win32 h2 env t) ∧
    (∀ (h : String) (env : WinEnv) (rest : String),
      resolvePath .linux h env ("~" ++ rest) = pathNormalize .linux (h ++ rest)) ∧
    (∀ (h : String) (up la : Option String) (ad u : String), ad ≠ "" →
      strOccurs (ad ++ u) "%USERPROFILE%" = false →
      strOccurs (ad ++ u) "%LOCALAPPDATA%" = false →
      resolvePath .win32 h { appdata := some ad, userprofile := up, localappdata := la }
        ("%APPDATA%" ++ u) = pathNormalize .win32 (ad ++ u)) ∧
    (∀ ad u : String, strOccurs u "%APPDATA%" = true →
      strOccurs (ad ++ u) "%APPDATA%" = true) ∧
    (∀ (h : String) (up la : Option String) (ad x y : String),
      plainSeg ad = true → plainSeg x = true → plainSeg y = true →
      strOccurs (ad ++ "/" ++ x ++ "/" ++ "%APPDATA%" ++ "/" ++ y) "%USERPROFILE%" = false →
      strOccurs (ad ++ "/" ++ x ++ "/" ++ "%APPDATA%" ++ "/" ++ y) "%LOCALAPPDATA%" = false →
      resolvePath .win32 h { appdata := some ad, userprofile := up, localappdata := la }
        ("%APPDATA%/" ++ x ++ "/%APPDATA%/" ++ y) =
        ad ++ "\\" ++ x ++ "\\" ++ "%APPDATA%" ++ "\\" ++ y) ∧
    (∀ h u : String,
      strOccurs ("%USERPROFILE%" ++ u) "%APPDATA%" = false →
      strOccurs (h ++ u) "%LOCALAPPDATA%" = false →
      resolvePath .win32 h { appdata := none, userprofile := none, localappdata := none }
        ("%USERPROFILE%" ++ u) = pathNormalize .win32 (h ++ u)) ∧
    (∀ h u : String,
      strOccurs u "%USERPROFILE%" = false → strOccurs u "%LOCALAPPDATA%" = false →
      resolvePath .win32 h { appdata := none, userprofile := none, localappdata := none }
        ("%APPDATA%" ++ u) = pathNormalize .win32 u) ∧
    (∀ h u : String,
      strOccurs ("%LOCALAPPDATA%" ++ u) "%APPDATA%" = false →
      strOccurs ("%LOCALAPPDATA%" ++ u) "%USERPROFILE%" = false →
      resolvePath .win32 h { appdata := none, userprofile := none, localappdata := none }
        ("%LOCALAPPDATA%" ++ u) = pathNormalize .win32 u) := by
  have hADne : ("%APPDATA%" : String) ≠ "" := by decide
  have hUPne : ("%USERPROFILE%" : String) ≠ "" := by decide
  have hLAne : ("%LOCALAPPDATA%" : String) ≠ "" := by decide
  refine ⟨?_, ?_, ?_, ?_, ?_, ?_, ?_, ?_, ?_⟩
  · intro h env t hst
    exact resolvePath_linux_plain h env t hst
  · intro h1 h2 s env t hst hs hsne
    rw [resolvePath_win32_subst h1 env t hst, resolvePath_win32_subst h2 env t hst]
    rw [hs]
    show pathNormalize _ (jsReplaceFirst _ "%LOCALAPPDATA%" _) = _
    rw [(by rw [jsOrElse, if_neg hsne] : jsOrElse (some s) h1 = s),
        (by rw [jsOrElse, if_neg hsne] : jsOrElse (some s) h2 = s)]
  · intro h env rest
    rw [resolvePath]
    simp only [strStarts_tilde_true rest]
    rw [if_neg (by decide : ¬ (OS.linux = OS.win32)), if_pos trivial,
      jsReplaceFirst_head "~" rest h (by decide)]
  · intro h up la ad u hadne hup hla
    rw [resolvePath_win32_subst h _ _
      (strStarts_tilde_false _ '%' _ (appdata_head_data u) (by decide))]
    show pathNormalize _ (jsReplaceFirst (jsReplaceFirst
      (jsReplaceFirst ("%APPDATA%" ++ u) "%APPDATA%" (jsOrElse (some ad) ""))
      "%USERPROFILE%" (jsOrElse up h)) "%LOCALAPPDATA%" (jsOrElse la "")) = _
    rw [(by rw [jsOrElse, if_neg hadne] : jsOrElse (some ad) "" = ad)]
    rw [jsReplaceFirst_head "%APPDATA%" u ad hADne]
    rw [jsReplaceFirst_of_not_occurs _ _ _ hup, jsReplaceFirst_of_not_occurs _ _ _ hla]
  · intro ad u hu
    exact strOccurs_append_left ad u "%APPDATA%" hu
  · intro h up la ad x y had hx hy hup hla
    have hassoc : ("%APPDATA%/" ++ x ++ "/%APPDATA%/" ++ y) =
        "%APPDATA%" ++ ("/" ++ x ++ "/" ++ "%APPDATA%" ++ "/" ++ y) := by
      apply strExt
      simp only [String.data_append, List.append_assoc]
      rfl
    have hassoc2 : ad ++ ("/" ++ x ++ "/" ++ "%APPDATA%" ++ "/" ++ y) =
        ad ++ "/" ++ x ++ "/" ++ "%APPDATA%" ++ "/" ++ y := by
      apply strExt
      simp [String.data_append, List.append_assoc]
    rw [hassoc]
    rw [resolvePath_win32_subst h _ _
      (strStarts_tilde_false _ '%' _ (appdata_head_data _) (by decide))]
    show pathNormalize _ (jsReplaceFirst (jsReplaceFirst
      (jsReplaceFirst ("%APPDATA%" ++ ("/" ++ x ++ "/" ++ "%APPDATA%" ++ "/" ++ y))
        "%APPDATA%" (jsOrElse (some ad) "")) "%USERPROFILE%" (jsOrElse up h))
      "%LOCALAPPDATA%" (jsOrElse la "")) = _
    rw [(by rw [jsOrElse, if_neg (plainSeg_ne_empty had)] : jsOrElse (some ad) "" = ad)]
    rw [jsReplaceFirst_head "%APPDATA%" _ ad hADne, hassoc2]
    rw [jsReplaceFirst_of_not_occurs _ _ _ hup, jsReplaceFirst_of_not_occurs _ _ _ hla]
    exact pathNormalize_segs4 ad x "%APPDATA%" y (plainSeg_segOk had) (plainSeg_segOk hx)
      (by decide) (plainSeg_segOk hy)
  · intro h u hap hla
    rw [resolvePath_win32_subst h _ _
      (strStarts_tilde_false _ '%' _ (userprofile_head_data u) (by decide))]
    show pathNormalize _ (jsReplaceFirst (jsReplaceFirst
      (jsReplaceFirst ("%USERPROFILE%" ++ u) "%APPDATA%" "")
      "%USERPROFILE%" h) "%LOCALAPPDATA%" "") = _
    rw [jsReplaceFirst_of_not_occurs _ _ _ hap]
    rw [jsReplaceFirst_head "%USERPROFILE%" u h hUPne]
    rw [jsReplaceFirst_of_not_occurs _ _ _ hla]
  · intro h u hupn hlan
    rw [resolvePath_win32_subst h _ _
      (strStarts_tilde_false _ '%' _ (appdata_head_data u) (by decide))]
    show pathNormalize _ (jsReplaceFirst (jsReplaceFirst
      (jsReplaceFirst ("%APPDATA%" ++ u) "%APPDATA%" "")
      "%USERPROFILE%" h) "%LOCALAPPDATA%" "") = _
    rw [jsReplaceFirst_head "%APPDATA%" u "" hADne, empty_append_str]
    rw [jsReplaceFirst_of_not_occurs _ _ _ hupn, jsReplaceFirst_of_not_occurs _ _ _ hlan]
  · intro h u hap hup
    rw [resolvePath_win32_subst h _ _
      (strStarts_tilde_false _ '%' _ (localappdata_head_data u) (by decide))]
    show pathNormalize _ (jsReplaceFirst (jsReplaceFirst
      (jsReplaceFirst ("%LOCALAPPDATA%" ++ u) "%APPDATA%" "")
      "%USERPROFILE%" h) "%LOCALAPPDATA%" "") = _
    rw [jsReplaceFirst_of_not_occurs _ _ _ hap, jsReplaceFirst_of_not_occurs _ _ _ hup]
    rw [jsReplaceFirst_head "%LOCALAPPDATA%" u "" hLAne, empty_append_str]

/-- C10 witness: the universal statements instantiated at concrete
inputs: an APPDATA template with two occurrences resolves with the
second occurrence literal in the returned path, occurrence in a tail
survives prepending, USERPROFILE falls back to the home directory when
unset, and a leading tilde expands to the home directory. -/
theorem c10_witness :
    resolvePath .win32 "C:/Users/u"
      { appdata := some "AD", userprofile := none, localappdata := none }
      ("%APPDATA%/" ++ "xx" ++ "/%APPDATA%/" ++ "yy") =
      "AD" ++ "\\" ++ "xx" ++ "\\" ++ "%APPDATA%" ++ "\\" ++ "yy" ∧
    strOccurs ("AD" ++ "/x/%APPDATA%") "%APPDATA%" = true ∧
    resolvePath .win32 "C:/Users/u"
      { appdata := none, userprofile := none, localappdata := none }
      ("%USERPROFILE%" ++ "/z") = pathNormalize .win32 ("C:/Users/u" ++ "/z") ∧
    resolvePath .linux "/home/u" { appdata := none, userprofile := none, localappdata := none }
      ("~" ++ "/a~b") = pathNormalize .linux ("/home/u" ++ "/a~b") :=
  ⟨c10_first_occurrence_resolution.2.2.2.2.2.1 "C:/Users/u" none none "AD" "xx" "yy"
     (by decide) (by decide) (by decide) (by decide) (by decide),
   c10_first_occurrence_resolution.2.2.2.2.1 "AD" "/x/%APPDATA%" (by decide),
   c10_first_occurrence_resolution.2.2.2.2.2.2.1 "C:/Users/u" "/z" (by decide) (by decide),
   c10_first_occurrence_resolution.2.2.1 "/home/u"
     { appdata := none, userprofile := none, localappdata := none } "/a~b"⟩
